import Mathlib

/-!
The go-video-upload job store, rendition transcoder and pipeline orchestrator.

A shallow embedding of the Go packages `internal/meta`, `internal/probe`,
`internal/thumbnail`, `internal/transcoder` and `internal/processor`.

Conventions of the embedding.

* Go `int`/`int64` values are `Int`; the arithmetic performed on them by the embedded code
  (preset heights and bitrates) stays far inside the 64-bit range.
* Go `float64` values that are only stored or compared (`DurationSec`, `FPS`, thumbnail
  timestamps) are exact rationals. The verb `%.2f` prints the nearest multiple of 0.01 of
  the value, a tie going to the even one (`sprintf2f`).
* `time.Time` is a natural number of clock ticks; the wall clock is an input of the model.
* A metadata file holds the JSON text of one record. `json.MarshalIndent` followed by
  `json.Unmarshal` is the identity on `Metadata`, so a file is modelled by the record it
  decodes to, or by `junk` when its bytes do not decode.
* The external world (subprocess exit statuses, directory creation, the manifest write, the
  clock) is an explicit `Env` of outcomes; the calls made are recorded in a trace.
* Each fallible step of `writeFileAtomic` (directory creation, marshalling, the write of the
  temporary file, the rename) can fail: the failing step of a store write is an input
  (`WriteFault`), chosen by the outside world for every write of the pipeline.
-/

namespace VideoUpload

/-! ## Data model (`internal/meta/types.go`) -/

/-- Wall-clock instants. -/
abbrev Time := Nat

/-- The Go struct `meta.Variant`. -/
structure Variant where
  Format : String
  Height : Int
  BitrateKbps : Int
  PathOrPl : String
  SizeBytes : Int
  ReadyAtUnix : Int
  deriving DecidableEq, Repr

/-- The Go struct `meta.Metadata`. -/
structure Metadata where
  ID : String
  OriginalFilename : String
  MIME : String
  SizeBytes : Int
  ChecksumSHA256 : String
  Status : String
  ErrorMessage : String
  DurationSec : Rat
  Width : Int
  Height : Int
  FPS : Rat
  StorageBase : String
  Variants : List Variant
  CreatedAt : Time
  UpdatedAt : Time
  deriving DecidableEq, Repr

/-- Status constants of `internal/store/types.go`. -/
def StatusQueued : String := "queued"

/-- Status constant `processing`. -/
def StatusProcessing : String := "processing"

/-- Status constant `ready`. -/
def StatusReady : String := "ready"

/-- Status constant `failed`. -/
def StatusFailed : String := "failed"

/-! ## Rendition presets (`internal/transcoder/transcoder.go`) -/

/-- The Go struct `transcoder.Resolution`. -/
structure Resolution where
  Height : Int
  VideoBitrate : String
  AudioBitrate : String
  MaxRate : String
  BufSize : String
  deriving DecidableEq, Repr

/-- The preset table `resolutions`. -/
def resolutions : List Resolution :=
  [ { Height := 480, VideoBitrate := "600k", AudioBitrate := "96k",
      MaxRate := "900k", BufSize := "1200k" },
    { Height := 720, VideoBitrate := "1000k", AudioBitrate := "128k",
      MaxRate := "1500k", BufSize := "2000k" },
    { Height := 1080, VideoBitrate := "1800k", AudioBitrate := "128k",
      MaxRate := "2700k", BufSize := "3600k" } ]

/-- The zero value of `Resolution`, used only to make indexing total. -/
def Resolution.zero : Resolution :=
  { Height := 0, VideoBitrate := "", AudioBitrate := "", MaxRate := "", BufSize := "" }

/-- The function `selectResolutions`: the range loop appends every preset below the source
height; an empty selection falls back to `resolutions[0]`. -/
def selectResolutions (originalHeight : Int) : List Resolution :=
  let selected := resolutions.foldl
    (fun selected res => if res.Height < originalHeight then selected ++ [res] else selected) []
  if selected.length = 0 then selected ++ [resolutions.getD 0 Resolution.zero] else selected

/-- Value of a run of decimal digits, most significant first. -/
def digitsValue (ds : List Char) : Nat :=
  ds.foldl (fun acc c => 10 * acc + (c.toNat - '0'.toNat)) 0

/-- The integer read by the verb `%d` of `fmt.Sscanf` at the start of `cs`: blanks are
skipped, an optional sign is accepted, then the longest run of digits and underscores is
taken and handed to `strconv.ParseInt` in base 10, which rejects an empty run, an
underscore and a value outside the 64-bit range. `none` is a scan error. -/
def scanInt (cs : List Char) : Option Int :=
  let cs := cs.dropWhile (fun c => c = ' ' ∨ c = '\t')
  let (neg, rest) :=
    match cs with
    | '-' :: r => (true, r)
    | '+' :: r => (false, r)
    | r => (false, r)
  let tok := rest.takeWhile (fun c => c.isDigit ∨ c = '_')
  if tok = [] ∨ '_' ∈ tok then none
  else
    let v : Int := if neg then -(digitsValue tok : Int) else (digitsValue tok : Int)
    if -(2 : Int) ^ 63 ≤ v ∧ v < (2 : Int) ^ 63 then some v else none

/-- The function `parseBitrate`: `fmt.Sscanf(inputString, "%dk", &value)` with the error
ignored, so `value` keeps its zero value when the scan of `%d` fails. -/
def parseBitrate (inputString : String) : Int :=
  (scanInt inputString.toList).getD 0

/-! ## Errors and paths -/

/-- A Go `error` value: the sentinel `fs.ErrNotExist`, or any other error identified by its
message (wrapping with `%w` is modelled by its effect on the message). -/
inductive GoError where
  | ErrNotExist
  | msg (text : String)
  deriving DecidableEq, Repr

deriving instance DecidableEq for Except

/-- The method `Error()`. -/
def GoError.Error : GoError → String
  | .ErrNotExist => "file does not exist"
  | .msg text => text

/-- The call `fmt.Errorf(pfx + "%w", err)`. -/
def GoError.wrap (pfx : String) (err : GoError) : GoError :=
  .msg (pfx ++ err.Error)

/-- The function `filepath.Join` on already clean elements: empty elements are dropped and the
rest joined with the separator (the lexical normalisation `filepath.Clean` is not modelled;
paths are used only as keys and arguments). -/
def joinPath (elems : List String) : String :=
  "/".intercalate (elems.filter (fun e => e ≠ ""))

/-- The function `filepath.Ext`: the suffix beginning at the final dot of the final path
element, empty when there is no dot. -/
def filepathExt (path : String) : String :=
  let last := path.toList.reverse.takeWhile (fun c => c ≠ '/')
  if '.' ∈ last then String.mk ('.' :: (last.takeWhile (fun c => c ≠ '.')).reverse) else ""

/-! ## The metadata directory -/

/-- What a reader finds in a file: the JSON text of a record, or bytes that
`json.Unmarshal` rejects with the given error. -/
inductive FileData where
  | record (m : Metadata)
  | junk (err : String)
  deriving DecidableEq, Repr

/-- The files of the metadata directory, by full path, most recently written first. -/
abbrev FS := List (String × FileData)

/-- The call `os.ReadFile`: `none` when the file does not exist. -/
def FS.read : FS → String → Option FileData
  | [], _ => none
  | (q, d) :: fs, p => if q = p then some d else FS.read fs p

/-- The call `os.Remove` (its error, when the file is missing, is ignored by the caller). -/
def FS.remove (fs : FS) (p : String) : FS :=
  fs.filter (fun e => e.1 ≠ p)

/-- The call `os.WriteFile`: creates the file or replaces its content. -/
def FS.write (fs : FS) (p : String) (d : FileData) : FS :=
  (p, d) :: fs.remove p

/-- The call `os.Rename`: fails when the source is missing, else moves it over the target. -/
def FS.rename (fs : FS) (src dst : String) : Option FS :=
  match fs.read src with
  | none => none
  | some d => some ((fs.remove src).write dst d)

/-! ## The JSON store (`internal/meta/jsonstore.go`) -/

/-- The Go struct `meta.JSONStore`. -/
structure JSONStore where
  root : String
  deriving DecidableEq, Repr

/-- The method `pathFor`. -/
def JSONStore.pathFor (s : JSONStore) (id : String) : String :=
  joinPath [s.root, id ++ ".json"]

/-- The step of one `writeFileAtomic` call that fails, with the error it returns:
`os.MkdirAll`, `json.MarshalIndent`, `os.WriteFile` of the temporary file, or `os.Rename`.
(`os.Remove` cannot make the call fail: its error is discarded.) A failed `os.WriteFile`
either created no file or left the temporary file with truncated content (`leftover`). -/
inductive WriteFault where
  | mkdirAll (err : GoError)
  | marshal (err : GoError)
  | writeFile (err : GoError) (leftover : Bool)
  | rename (err : GoError)
  deriving DecidableEq, Repr

/-- The function `writeFileAtomic`: create the directory, marshal, write the temporary file,
remove the destination, rename the temporary file onto it. `fault` is the step that fails
in this call, `none` when every step succeeds. A failed `os.WriteFile` may leave the
temporary file with truncated content; a failed `os.Rename` comes after the destination has
been removed. -/
def writeFileAtomic (fault : Option WriteFault) (dest : String) (v : Metadata) (fs : FS) :
    Except GoError Unit × FS :=
  match fault with
  | some (.mkdirAll err) => (.error err, fs)
  | some (.marshal err) => (.error err, fs)
  | some (.writeFile err leftover) =>
    let tmp := dest ++ ".tmp"
    (.error err, if leftover then fs.write tmp (.junk "unexpected end of JSON input") else fs)
  | some (.rename err) =>
    let tmp := dest ++ ".tmp"
    let fs := fs.write tmp (.record v)
    let fs := fs.remove dest
    (.error err, fs)
  | none =>
    let tmp := dest ++ ".tmp"
    let fs := fs.write tmp (.record v)
    let fs := fs.remove dest
    match fs.rename tmp dest with
    | none => (.error .ErrNotExist, fs)
    | some fs => (.ok (), fs)

/-- The method `Create`; `now` is the value of `time.Now()`, `fault` the failing step of
the write, if any. -/
def JSONStore.Create (s : JSONStore) (fault : Option WriteFault) (now : Time) (m : Metadata)
    (fs : FS) : Except GoError Unit × FS :=
  let m := { m with CreatedAt := now, UpdatedAt := now }
  let p := s.pathFor m.ID
  match writeFileAtomic fault p m fs with
  | (.error err, fs) => (.error err, fs)
  | (.ok (), fs) => (.ok (), fs)

/-- The method `Get`. -/
def JSONStore.Get (s : JSONStore) (id : String) (fs : FS) : Except GoError Metadata :=
  let p := s.pathFor id
  match fs.read p with
  | none => .error .ErrNotExist
  | some (.junk err) => .error (.msg err)
  | some (.record m) => .ok m

/-- The method `Update`; `now` is the value of `time.Now()`, `fault` the failing step of
the write, if any. -/
def JSONStore.Update (s : JSONStore) (fault : Option WriteFault) (now : Time) (m : Metadata)
    (fs : FS) : Except GoError Unit × FS :=
  let m := { m with UpdatedAt := now }
  let p := s.pathFor m.ID
  writeFileAtomic fault p m fs


/-! ## The external world -/

/-- The Go struct `config.Config`. -/
structure Config where
  Port : String
  StorageDir : String
  FFmpegPath : String
  FFprobePath : String
  MaxUploadMB : Int
  Workers : Int
  AllowedMIME : List String
  deriving DecidableEq, Repr

/-- The Go struct `probe.VideoInfo`. -/
structure VideoInfo where
  Duration : Rat
  Width : Int
  Height : Int
  FPS : Rat
  Bitrate : Int
  CodecName : String
  AudioCodec : String
  deriving DecidableEq, Repr

/-- One element of `ffprobeOutput.Streams`. -/
structure ProbeStream where
  CodecType : String
  CodecName : String
  Width : Int
  Height : Int
  RFrameRate : String
  BitRate : String
  Duration : String
  deriving DecidableEq, Repr

/-- The field `ffprobeOutput.Format`. -/
structure ProbeFormat where
  Duration : String
  BitRate : String
  deriving DecidableEq, Repr

/-- The Go struct `probe.ffprobeOutput`. -/
structure ffprobeOutput where
  Streams : List ProbeStream
  Format : ProbeFormat
  deriving DecidableEq, Repr

/-- The call sites of `Runner.Run`: the inspector, the extraction of numbered frame `i`
(1-indexed), the poster extraction, the encoding of the rendition of a given height. -/
inductive Call where
  | probe
  | frame (i : Nat)
  | poster
  | encode (height : Int)
  deriving DecidableEq, Repr

/-- An observable action of the pipeline, in the order performed. -/
inductive Event where
  | run (call : Call) (name : String) (args : List String)
  | mkdirAll (path : String)
  | writeFile (path : String) (content : String)
  | store (m : Metadata)
  deriving DecidableEq, Repr

/-- Outcomes supplied by the outside world. An outcome `none` is success and `some err` is
the error returned. `clock n` is the `n`-th reading of `time.Now()`. `probeData` is the
result of decoding the inspector's output. `ParseFloat` is `strconv.ParseFloat(s, 64)`
(value and error). `writeFault n` is the failing step, if any, of the store write whose
clock reading is the `n`-th one (every store write of the pipeline reads the clock exactly
once, so distinct writes have distinct readings). -/
structure Env where
  clock : Nat → Time
  run : Call → Option GoError
  probeData : Except GoError ffprobeOutput
  mkdirAll : String → Option GoError
  writeFile : String → Option GoError
  ParseFloat : String → Rat × Option GoError
  writeFault : Nat → Option WriteFault

/-- State threaded through the pipeline: the metadata directory, the number of clock
readings made, and the trace of actions performed so far. -/
structure World where
  fs : FS
  tick : Nat
  trace : List Event
  deriving DecidableEq, Repr

/-- Record an action at the end of the trace. -/
def World.log (w : World) (e : Event) : World :=
  { w with trace := w.trace ++ [e] }

/-- The call `store.Get` in a world. -/
def World.Get (store : JSONStore) (id : String) (w : World) : Except GoError Metadata :=
  store.Get id w.fs

/-- The call `store.Update` in a world: reads the clock once; the write fails at the step the
outside world chooses for it; a successful write is recorded in the trace with the record
as persisted. -/
def World.Update (env : Env) (store : JSONStore) (m : Metadata) (w : World) :
    Option GoError × World :=
  let now := env.clock w.tick
  match store.Update (env.writeFault w.tick) now m w.fs with
  | (.error err, fs) => (some err, { w with fs := fs, tick := w.tick + 1 })
  | (.ok (), fs) =>
    (none, { fs := fs, tick := w.tick + 1,
             trace := w.trace ++ [.store { m with UpdatedAt := now }] })

/-! ## The inspector (`internal/probe/probe.go`) -/

/-- The function `strconv.Atoi`: an optional sign followed by decimal digits only, within
the 64-bit range. -/
def Atoi (s : String) : Option Int :=
  let (neg, ds) :=
    match s.toList with
    | '-' :: r => (true, r)
    | '+' :: r => (false, r)
    | r => (false, r)
  if ds = [] ∨ ¬ ds.all Char.isDigit then none
  else
    let v : Int := if neg then -(digitsValue ds : Int) else (digitsValue ds : Int)
    if -(2 : Int) ^ 63 ≤ v ∧ v < (2 : Int) ^ 63 then some v else none

/-- The call `strings.Split(s, sep)` for a one-character separator, on character lists. -/
def splitChars (sep : Char) : List Char → List (List Char)
  | [] => [[]]
  | c :: cs =>
    if c = sep then [] :: splitChars sep cs
    else
      match splitChars sep cs with
      | [] => [[c]]
      | part :: parts => (c :: part) :: parts

/-- The loop over `probeData.Streams` of `ProbeVideo`. -/
def probeStreams (env : Env) : List ProbeStream → VideoInfo → VideoInfo
  | [], info => info
  | stream :: rest, info =>
    if stream.CodecType = "video" ∧ info.Width = 0 then
      let info : VideoInfo := { info with Width := stream.Width, Height := stream.Height,
                                          CodecName := stream.CodecName }
      let info : VideoInfo :=
        if stream.RFrameRate ≠ "" then
          let parts := (splitChars '/' stream.RFrameRate.toList).map String.mk
          if parts.length = 2 then
            let num := (env.ParseFloat (parts.getD 0 "")).1
            let den := (env.ParseFloat (parts.getD 1 "")).1
            if den > 0 then { info with FPS := num / den } else info
          else info
        else info
      let info : VideoInfo :=
        if info.Duration = 0 ∧ stream.Duration ≠ "" then
          match env.ParseFloat stream.Duration with
          | (duration, none) => { info with Duration := duration }
          | (_, some _) => info
        else info
      probeStreams env rest info
    else if stream.CodecType = "audio" ∧ info.AudioCodec = "" then
      probeStreams env rest { info with AudioCodec := stream.CodecName }
    else probeStreams env rest info

/-- The method `Prober.ProbeVideo`. -/
def ProbeVideo (env : Env) (cfg : Config) (videoPath : String) (w : World) :
    Except GoError VideoInfo × World :=
  let args := ["-v", "quiet", "-print_format", "json", "-show_format", "-show_streams",
    videoPath]
  let w := w.log (.run .probe cfg.FFprobePath args)
  match env.run .probe with
  | some err => (.error (err.wrap "ffprobe failed: "), w)
  | none =>
    match env.probeData with
    | .error err => (.error (err.wrap "parse ffprobe output: "), w)
    | .ok probeData =>
      let info : VideoInfo :=
        { Duration := 0, Width := 0, Height := 0, FPS := 0, Bitrate := 0,
          CodecName := "", AudioCodec := "" }
      let info : VideoInfo :=
        if probeData.Format.Duration ≠ "" then
          match env.ParseFloat probeData.Format.Duration with
          | (duration, none) => { info with Duration := duration }
          | (_, some _) => info
        else info
      let info : VideoInfo :=
        if probeData.Format.BitRate ≠ "" then
          match Atoi probeData.Format.BitRate with
          | some bitrate => { info with Bitrate := bitrate.tdiv 1000 }
          | none => info
        else info
      (.ok (probeStreams env probeData.Streams info), w)

/-! ## The thumbnail generator (`internal/thumbnail/generator.go`) -/

/-- The Go struct `thumbnail.Options`. -/
structure Options where
  Count : Int
  Interval : Rat
  Width : Int
  Quality : Int
  deriving DecidableEq, Repr

/-- The function `DefaultOptions`. -/
def DefaultOptions : Options :=
  { Count := 5, Interval := 0, Width := 320, Quality := 2 }

/-- The verb `%03d` on a non-negative number. -/
def pad3 (n : Nat) : String :=
  String.mk (List.replicate (3 - (toString n).length) '0') ++ toString n

/-- The hundredths printed by the verb `%.2f` for the magnitude of `x`: the integer nearest
to `|x| * 100`, a tie going to the even one. -/
def roundHundredths (x : Rat) : Nat :=
  let y : Rat := |x| * 100
  let f : Nat := ⌊y⌋.toNat
  if y - (f : Rat) < 1 / 2 then f
  else if 1 / 2 < y - (f : Rat) then f + 1
  else if f % 2 = 0 then f else f + 1

/-- The verb `%02d` on a number below 100. -/
def pad2 (n : Nat) : String :=
  String.mk (List.replicate (2 - (toString n).length) '0') ++ toString n

/-- The call `fmt.Sprintf("%.2f", x)`: sign, integer part, point, two decimals. -/
def sprintf2f (x : Rat) : String :=
  (if x < 0 then "-" else "") ++ toString (roundHundredths x / 100) ++ "."
    ++ pad2 (roundHundredths x % 100)

/-- The timestamp of the frame with 0-based index `i`: `interval * (i+1)`, replaced by
`duration * (i / count)` when it reaches `duration`. -/
def frameTimestamp (duration interval : Rat) (count : Int) (i : Nat) : Rat :=
  let timestamp := interval * (((i + 1 : Nat) : Int) : Rat)
  if timestamp ≥ duration then duration * (((i : Int) : Rat) / (count : Rat)) else timestamp

/-- The argument list of the extraction of one numbered frame. -/
def frameArgs (inputPath outputPath : String) (timestamp : Rat)
    (options : Options) : List String :=
  ["-y", "-ss", sprintf2f timestamp, "-i", inputPath, "-vframes", "1",
   "-vf", "scale=" ++ toString options.Width ++ ":-1",
   "-q:v", toString options.Quality, outputPath]

/-- The argument list of the poster extraction. -/
def posterArgs (inputPath posterPath : String) (options : Options) : List String :=
  ["-y", "-i", inputPath,
   "-vf", "select=\x27gt(scene,0.4)\x27,scale=" ++ toString (options.Width * 2) ++ ":-1",
   "-frames:v", "1", "-q:v", toString options.Quality, posterPath]

/-- The defaults applied by `GenerateThumbnails` to non-positive or out-of-range options. -/
def applyDefaults (options : Options) : Options :=
  let options : Options := if options.Count ≤ 0 then { options with Count := 5 } else options
  let options : Options := if options.Width ≤ 0 then { options with Width := 320 } else options
  if options.Quality ≤ 0 ∨ options.Quality > 31 then { options with Quality := 2 } else options

/-- The frame loop of `GenerateThumbnails`, from 0-based index `i`, with `n` iterations left.
Returns the paths collected and the error that ended the loop, if any. -/
def frameLoop (env : Env) (cfg : Config) (videoID inputPath thumbDir : String)
    (duration interval : Rat) (options : Options) :
    Nat → Nat → List String → World → (List String × Option GoError) × World
  | 0, _, thumbnails, w => ((thumbnails, none), w)
  | n + 1, i, thumbnails, w =>
    let timestamp := frameTimestamp duration interval options.Count i
    let outputPath := joinPath [thumbDir, "thumb_" ++ pad3 (i + 1) ++ ".jpg"]
    let args := frameArgs inputPath outputPath timestamp options
    let w := w.log (.run (.frame (i + 1)) cfg.FFmpegPath args)
    match env.run (.frame (i + 1)) with
    | some err =>
      ((thumbnails, some (err.wrap ("generate thumbnail " ++ toString (i + 1) ++ " at "
          ++ sprintf2f timestamp ++ "s: "))), w)
    | none =>
      frameLoop env cfg videoID inputPath thumbDir duration interval options n (i + 1)
        (thumbnails ++ ["thumbnails/" ++ videoID ++ "/thumb_" ++ pad3 (i + 1) ++ ".jpg"]) w

/-- The method `Generator.GenerateThumbnails`. -/
def GenerateThumbnails (env : Env) (cfg : Config) (videoID inputPath : String)
    (duration : Rat) (options : Options) (w : World) :
    (List String × Option GoError) × World :=
  let thumbDir := joinPath [cfg.StorageDir, "thumbnails", videoID]
  let w := w.log (.mkdirAll thumbDir)
  match env.mkdirAll thumbDir with
  | some err => (([], some (err.wrap "create thumbnail dir: ")), w)
  | none =>
    let options : Options := applyDefaults options
    let interval : Rat := options.Interval
    let interval : Rat :=
      if interval ≤ 0 ∧ duration > 0 then duration / ((options.Count + 1 : Int) : Rat)
      else interval
    match frameLoop env cfg videoID inputPath thumbDir duration interval options
        options.Count.toNat 0 [] w with
    | ((thumbnails, some err), w) => ((thumbnails, some err), w)
    | ((thumbnails, none), w) =>
      let posterPath := joinPath [thumbDir, "poster.jpg"]
      let w := w.log (.run .poster cfg.FFmpegPath (posterArgs inputPath posterPath options))
      match env.run .poster with
      | some _ => ((thumbnails ++ ["thumbnails/" ++ videoID ++ "/poster.jpg"], none), w)
      | none => ((thumbnails, none), w)

/-! ## The rendition transcoder (`internal/transcoder/transcoder.go`) -/

/-- The argument list handed to the encoder for one rendition. -/
def encodeArgs (inputPath resDir : String) (res : Resolution) : List String :=
  let playlistPath := joinPath [resDir, "index.m3u8"]
  let segmentPath := joinPath [resDir, "%05d.ts"]
  ["-y", "-i", inputPath, "-vf", "scale=-2:" ++ toString res.Height, "-c:v", "libx264",
   "-preset", "ultrafast", "-profile:v", "main", "-b:v", res.VideoBitrate,
   "-maxrate", res.MaxRate, "-bufsize", res.BufSize, "-g", "48", "-keyint_min", "48",
   "-sc_threshold", "0", "-c:a", "aac", "-b:a", res.AudioBitrate, "-threads", "2",
   "-f", "hls", "-hls_time", "4", "-hls_playlist_type", "vod",
   "-hls_segment_filename", segmentPath, playlistPath]

/-- The `Variant` appended after a rendition has been encoded. -/
def variantOf (res : Resolution) : Variant :=
  { Format := "hls", Height := res.Height, BitrateKbps := parseBitrate res.VideoBitrate,
    PathOrPl := toString res.Height ++ "/index.m3u8", SizeBytes := 0, ReadyAtUnix := 0 }

/-- The text assembled by `generateMasterPlaylist`. -/
def masterContent (targetResolutions : List Resolution) : String :=
  targetResolutions.foldl
    (fun content res =>
      let bandwidth :=
        parseBitrate res.VideoBitrate * 1000 + parseBitrate res.AudioBitrate * 1000
      content ++ ("#EXT-X-STREAM-INF:BANDWIDTH=" ++ toString bandwidth ++ ",RESOLUTION="
          ++ toString ((res.Height * 16).tdiv 9) ++ "x" ++ toString res.Height ++ "\n")
        ++ (toString res.Height ++ "/index.m3u8\n"))
    "#EXTM3U\n#EXT-X-VERSION:3\n\n"

/-- The method `generateMasterPlaylist`. -/
def generateMasterPlaylist (env : Env) (outputDir : String)
    (targetResolutions : List Resolution) (w : World) : Option GoError × World :=
  let masterPath := joinPath [outputDir, "master.m3u8"]
  let w := w.log (.writeFile masterPath (masterContent targetResolutions))
  (env.writeFile masterPath, w)

/-- The rendition loop of `TranscodeVideo` over the presets still to encode. It returns the
updated `metadata` when every remaining rendition was encoded, and the error returned by
`TranscodeVideo` otherwise. -/
def transcodeLoop (env : Env) (cfg : Config) (store : JSONStore)
    (inputPath outputDir : String) :
    List Resolution → Metadata → World → Except GoError Metadata × World
  | [], metadata, w => (.ok metadata, w)
  | res :: rest, metadata, w =>
    let resDir := joinPath [outputDir, toString res.Height]
    let w := w.log (.mkdirAll resDir)
    match env.mkdirAll resDir with
    | some err => (.error (err.wrap "create resolution dir: "), w)
    | none =>
      let w := w.log (.run (.encode res.Height) cfg.FFmpegPath (encodeArgs inputPath resDir res))
      match env.run (.encode res.Height) with
      | some err =>
        let metadata := { metadata with
          Status := StatusFailed
          ErrorMessage := "transcode " ++ toString res.Height ++ "p failed: " ++ err.Error }
        let w := (w.Update env store metadata).2
        (.error (err.wrap ("transcode " ++ toString res.Height ++ "p: ")), w)
      | none =>
        let varient := variantOf res
        transcodeLoop env cfg store inputPath outputDir rest
          { metadata with Variants := metadata.Variants ++ [varient] } w

/-- The method `Transcoder.TranscodeVideo`; the result is the returned error, `none` for
`nil`. -/
def TranscodeVideo (env : Env) (cfg : Config) (store : JSONStore) (videoID : String)
    (w : World) : Option GoError × World :=
  match w.Get store videoID with
  | .error err => (some (err.wrap "get metadata: "), w)
  | .ok metadata =>
    let metadata := { metadata with Status := StatusProcessing }
    match w.Update env store metadata with
    | (some err, w) => (some (err.wrap "update metadata: "), w)
    | (none, w) =>
      let inputPath := joinPath [cfg.StorageDir, "originals", videoID,
        "original" ++ filepathExt metadata.OriginalFilename]
      let outputDir := joinPath [cfg.StorageDir, "outputs", videoID]
      let targetResolutions := selectResolutions metadata.Height
      match transcodeLoop env cfg store inputPath outputDir targetResolutions metadata w with
      | (.error err, w) => (some err, w)
      | (.ok metadata, w) =>
        match generateMasterPlaylist env outputDir targetResolutions w with
        | (some err, w) => (some (err.wrap "generate master playlist: "), w)
        | (none, w) =>
          let metadata := { metadata with Status := StatusReady }
          match w.Update env store metadata with
          | (some err, w) => (some (err.wrap "update final status: "), w)
          | (none, w) => (none, w)

/-! ## The pipeline orchestrator (`internal/processor/processor.go`) -/

/-- The method `Processor.ProcessVideo` (log output is not modelled). -/
def ProcessVideo (env : Env) (cfg : Config) (store : JSONStore) (videoID : String)
    (w : World) : World :=
  match w.Get store videoID with
  | .error _ => w
  | .ok m =>
    let inputPath := joinPath [cfg.StorageDir, "originals", videoID,
      "original" ++ filepathExt m.OriginalFilename]
    match ProbeVideo env cfg inputPath w with
    | (.error _, w) =>
      let m := { m with
        Status := "processing"
        ErrorMessage := "FFprobe not available, skipping video analysis" }
      let w := (w.Update env store m).2
      let thumbOpts := DefaultOptions
      let w := (GenerateThumbnails env cfg videoID inputPath 0 thumbOpts w).2
      let m := { m with
        Status := "failed"
        ErrorMessage :=
          "FFmpeg/FFprobe not installed. Please install FFmpeg to enable video processing." }
      let w := (w.Update env store m).2
      w
    | (.ok videoInfo, w) =>
      let now := env.clock w.tick
      let w := { w with tick := w.tick + 1 }
      let m := { m with
        DurationSec := videoInfo.Duration
        Width := videoInfo.Width
        Height := videoInfo.Height
        FPS := videoInfo.FPS
        UpdatedAt := now }
      let w := (w.Update env store m).2
      let thumbOpts := DefaultOptions
      let w := (GenerateThumbnails env cfg videoID inputPath videoInfo.Duration thumbOpts w).2
      let w := (TranscodeVideo env cfg store videoID w).2
      w

/-! ## Reading a trace -/

/-- The actions of one fully attempted rendition: directory creation, then the encoder. -/
def renditionEvents (cfg : Config) (inputPath outputDir : String) (res : Resolution) :
    List Event :=
  [.mkdirAll (joinPath [outputDir, toString res.Height]),
   .run (.encode res.Height) cfg.FFmpegPath
     (encodeArgs inputPath (joinPath [outputDir, toString res.Height]) res)]

/-- The actions of a run of fully attempted renditions, in order. -/
def ladderEvents (cfg : Config) (inputPath outputDir : String) : List Resolution → List Event
  | [] => []
  | res :: rest =>
    renditionEvents cfg inputPath outputDir res ++ ladderEvents cfg inputPath outputDir rest


/-- The records persisted during a run, in order. -/
def persisted : List Event → List Metadata
  | [] => []
  | .store m :: es => m :: persisted es
  | _ :: es => persisted es

/-- The heights for which the encoder subprocess was invoked, in order. -/
def encoded : List Event → List Int
  | [] => []
  | .run (.encode h) _ _ :: es => h :: encoded es
  | _ :: es => encoded es

/-! ## Listing the store and the steps of a store write -/

/-- Byte-wise order of file names, on character lists. -/
def leChars : List Char → List Char → Bool
  | [], _ => true
  | _ :: _, [] => false
  | a :: as, b :: bs =>
    if a.toNat < b.toNat then true
    else if b.toNat < a.toNat then false
    else leChars as bs

/-- The call `os.ReadDir(root)` restricted to regular files: the names of the files directly
inside `root` (the files whose path is `joinPath [root, name]`), sorted by name. Files of
sub-directories appear in the listing only through their directory, which `List` skips. The
directory itself exists: it is created at start-up. -/
def FS.readDir (fs : FS) (root : String) : List String :=
  let dir := if root = "" then [] else (root ++ "/").toList
  let names := fs.filterMap (fun e =>
    let name := e.1.toList.drop dir.length
    if dir.isPrefixOf e.1.toList ∧ name ≠ [] ∧ '/' ∉ name then some (String.mk name) else none)
  names.insertionSort (fun a b => leChars a.toList b.toList = true)

/-- The states of the metadata directory that a reader, or a restart after a crash, can find
during `writeFileAtomic dest v`, in order: before the call; while `os.WriteFile` is still
writing the temporary file; after `os.WriteFile`; after `os.Remove(dest)`; after
`os.Rename`. -/
def writeFileAtomicStates (dest : String) (v : Metadata) (fs : FS) : List FS :=
  let tmp := dest ++ ".tmp"
  let fs0 := fs.write tmp (.junk "unexpected end of JSON input")
  let fs1 := fs.write tmp (.record v)
  let fs2 := fs1.remove dest
  match fs2.rename tmp dest with
  | none => [fs, fs0, fs1, fs2]
  | some fs3 => [fs, fs0, fs1, fs2, fs3]

/-- The states of the metadata directory during `Update`. -/
def JSONStore.UpdateStates (s : JSONStore) (now : Time) (m : Metadata) (fs : FS) : List FS :=
  writeFileAtomicStates (s.pathFor m.ID) { m with UpdatedAt := now } fs

/-- The method `List`, on an existing metadata directory: entries that are not `.json` files,
that cannot be read or that do not decode are skipped. -/
def JSONStore.List (s : JSONStore) (fs : FS) : List Metadata :=
  (fs.readDir s.root).filterMap (fun name =>
    if filepathExt name ≠ ".json" then none
    else
      match fs.read (joinPath [s.root, name]) with
      | some (.record m) => some m
      | _ => none)

/-! ## Reading the thumbnail generator -/

/-- The interval `GenerateThumbnails` works with, given the options after defaults: the
automatic `duration / (count + 1)` when the configured interval is not positive and the
duration is positive, the configured interval otherwise. -/
def chosenInterval (duration : Rat) (options : Options) : Rat :=
  if options.Interval ≤ 0 ∧ duration > 0 then duration / ((options.Count + 1 : Int) : Rat)
  else options.Interval

/-- The seek timestamp `GenerateThumbnails` computes for the frame with 1-based index `i`:
the options after defaults, the interval after the automatic choice, then the value of
`timestamp` in the loop iteration `i - 1`. -/
def seekTimestamp (duration : Rat) (options : Options) (i : Nat) : Rat :=
  frameTimestamp duration (chosenInterval duration (applyDefaults options))
    (applyDefaults options).Count (i - 1)

/-- The relative path returned for the frame with 1-based index `i`. -/
def framePath (videoID : String) (i : Nat) : String :=
  "thumbnails/" ++ videoID ++ "/thumb_" ++ pad3 i ++ ".jpg"

/-- The invocation recorded for the frame with 1-based index `i` in the frame loop. -/
def frameEvent (cfg : Config) (inputPath thumbDir : String)
    (duration interval : Rat) (options : Options) (i : Nat) : Event :=
  .run (.frame i) cfg.FFmpegPath
    (frameArgs inputPath (joinPath [thumbDir, "thumb_" ++ pad3 i ++ ".jpg"])
      (frameTimestamp duration interval options.Count (i - 1)) options)

/-- The indices of the numbered frames for which the extraction subprocess was invoked. -/
def frameCalls : List Event → List Nat
  | [] => []
  | .run (.frame i) _ _ :: es => i :: frameCalls es
  | _ :: es => frameCalls es

/-! ## Reading the top-level manifest -/

/-- One stream entry of the top-level manifest: the declaration line with bandwidth and
resolution, followed by the reference to the rendition's own manifest. -/
def streamEntry (res : Resolution) : String :=
  ("#EXT-X-STREAM-INF:BANDWIDTH="
      ++ toString (1000 * (parseBitrate res.VideoBitrate + parseBitrate res.AudioBitrate))
      ++ ",RESOLUTION=" ++ toString ((res.Height * 16).tdiv 9) ++ "x" ++ toString res.Height
      ++ "\n")
    ++ (toString res.Height ++ "/index.m3u8\n")

/-- The stream entries of a ladder, one after the other. -/
def entriesText : List Resolution → String
  | [] => ""
  | res :: rest => streamEntry res ++ entriesText rest

/-! ## Lifecycle order and sample data -/

/-- The 480p preset, first row of the table. -/
def preset480 : Resolution :=
  { Height := 480, VideoBitrate := "600k", AudioBitrate := "96k",
    MaxRate := "900k", BufSize := "1200k" }

/-- The 720p preset, second row of the table. -/
def preset720 : Resolution :=
  { Height := 720, VideoBitrate := "1000k", AudioBitrate := "128k",
    MaxRate := "1500k", BufSize := "2000k" }

/-- The 1080p preset, third row of the table. -/
def preset1080 : Resolution :=
  { Height := 1080, VideoBitrate := "1800k", AudioBitrate := "128k",
    MaxRate := "2700k", BufSize := "3600k" }

/-- A store rooted at the metadata directory of the default configuration. -/
def demoStore : JSONStore := { root := "storage/metadata" }

/-- A freshly ingested job, as built by the upload handler. -/
def demoJob : Metadata :=
  { ID := "v1", OriginalFilename := "clip.mp4", MIME := "video/mp4", SizeBytes := 1024,
    ChecksumSHA256 := "", Status := "queued", ErrorMessage := "", DurationSec := 0,
    Width := 0, Height := 0, FPS := 0, StorageBase := "storage", Variants := [],
    CreatedAt := 0, UpdatedAt := 0 }

/-- A metadata directory holding `demoJob` as created at time 5. -/
def demoFS : FS :=
  [("storage/metadata/v1.json", .record { demoJob with CreatedAt := 5, UpdatedAt := 5 })]

/-- A configuration with the default storage directory. -/
def demoConfig : Config :=
  { Port := "1323", StorageDir := "storage", FFmpegPath := "ffmpeg", FFprobePath := "ffprobe",
    MaxUploadMB := 512, Workers := 1,
    AllowedMIME := ["video/mp4", "video/quicktime", "video/x-matroska"] }

/-- An outside world in which every call succeeds; the inspector reports no stream. -/
def demoEnv : Env :=
  { clock := fun n => 10 + n
    run := fun _ => none
    probeData := .ok { Streams := [], Format := { Duration := "", BitRate := "" } }
    mkdirAll := fun _ => none
    writeFile := fun _ => none
    ParseFloat := fun _ => (0, none)
    writeFault := fun _ => none }

/-- The world of `demoEnv` in which the encoder fails for the 720p rendition. -/
def demoEnvFail720 : Env :=
  { demoEnv with
    run := fun call => if call = .encode 720 then some (.msg "exit status 1") else none }

/-- A stored job whose source is 2160 pixels high, so that all three presets are selected. -/
def demoJobUHD : Metadata := { demoJob with Width := 3840, Height := 2160 }

/-- A world whose metadata directory holds `demoJobUHD`. -/
def demoWorld : World :=
  { fs := [("storage/metadata/v1.json", .record demoJobUHD)], tick := 0, trace := [] }

/-- Position of a status in the lifecycle `queued`, `processing`, then `ready` or `failed`;
`none` for any other text. -/
def statusRank (status : String) : Option Nat :=
  if status = "queued" then some 0
  else if status = "processing" then some 1
  else if status = "ready" ∨ status = "failed" then some 2
  else none

/-- A store write of status `next` over a stored status `prev` respects the lifecycle: it does
not move to an earlier position, and it does not set `ready` or `failed` over `queued`. -/
def allowedStep (prev next : String) : Bool :=
  match statusRank prev, statusRank next with
  | some a, some b => decide (a ≤ b) && !(a == 0 && b == 2)
  | _, _ => false

/-- The world of `demoEnv` in which neither `ffprobe` nor `ffmpeg` can be started. -/
def demoEnvNoTools : Env :=
  { demoEnv with run := fun _ => some (.msg "executable file not found in $PATH") }

/-- The world of `demoEnv` in which no directory can be created. -/
def demoEnvNoDisk : Env :=
  { demoEnv with mkdirAll := fun _ => some (.msg "permission denied") }

/-- The world of `demoEnv` in which the manifest cannot be written. -/
def demoEnvNoManifest : Env :=
  { demoEnv with writeFile := fun _ => some (.msg "no space left on device") }

/-- The world of `demoEnv` in which the poster extraction fails. -/
def demoEnvNoPoster : Env :=
  { demoEnv with
    run := fun call => if call = .poster then some (.msg "exit status 1") else none }

/-- The world of `demoEnv` in which the extraction of the third frame fails. -/
def demoEnvFailFrame3 : Env :=
  { demoEnv with
    run := fun call => if call = .frame 3 then some (.msg "exit status 1") else none }

/-- A sample of `strconv.ParseFloat` on the three numerals used below. -/
def demoParseFloat (s : String) : Rat × Option GoError :=
  if s = "30" then (30, none)
  else if s = "1" then (1, none)
  else if s = "0" then (0, none)
  else (0, some (.msg "invalid syntax"))

/-- A video stream of unknown dimensions: width and height are reported as 0. -/
def demoStreamUnknown : ProbeStream :=
  { CodecType := "video", CodecName := "mjpeg", Width := 0, Height := 0,
    RFrameRate := "0/0", BitRate := "", Duration := "" }

/-- A 1920x1080 video stream at 30 frames per second. -/
def demoStreamHD : ProbeStream :=
  { CodecType := "video", CodecName := "h264", Width := 1920, Height := 1080,
    RFrameRate := "30/1", BitRate := "", Duration := "" }

/-- An audio stream. -/
def demoStreamAudio : ProbeStream :=
  { CodecType := "audio", CodecName := "aac", Width := 0, Height := 0,
    RFrameRate := "0/0", BitRate := "", Duration := "" }

/-- The world of `demoEnv` in which the inspector lists the given streams. -/
def demoEnvStreams (streams : List ProbeStream) : Env :=
  { demoEnv with
    probeData := .ok { Streams := streams, Format := { Duration := "", BitRate := "" } }
    ParseFloat := demoParseFloat }

/-- Options asking for a single frame at 0.996 seconds. -/
def demoOptionsLate : Options :=
  { Count := 1, Interval := 249 / 250, Width := 320, Quality := 2 }

/-- The world of `demoEnvFail720` in which, in addition, the second store write fails while
writing its temporary file. -/
def demoEnvFail720WriteFails : Env :=
  { demoEnvFail720 with
    writeFault := fun n =>
      if n = 1 then some (.writeFile (.msg "no space left on device") true) else none }

/-- The world of `demoEnvNoTools` in which, in addition, the first store write fails while
writing its temporary file. -/
def demoEnvNoToolsFirstWriteFails : Env :=
  { demoEnvNoTools with
    writeFault := fun n =>
      if n = 0 then some (.writeFile (.msg "no space left on device") true) else none }

/-- The world of `demoEnvNoTools` in which, in addition, the second store write fails while
writing its temporary file. -/
def demoEnvNoToolsSecondWriteFails : Env :=
  { demoEnvNoTools with
    writeFault := fun n =>
      if n = 1 then some (.writeFile (.msg "no space left on device") true) else none }

/-- A world whose metadata directory holds `demoJobUHD` already `ready`, with one variant. -/
def demoWorldReady : World :=
  { fs := [("storage/metadata/v1.json",
      .record { demoJobUHD with Status := "ready", Variants := [variantOf preset480] })],
    tick := 0, trace := [] }

/-! ## Rendition selection -/

theorem resolutions_eq : resolutions = [preset480, preset720, preset1080] := rfl

theorem selectResolutions_cases (h : Int) :
    selectResolutions h =
      if h ≤ 480 then [preset480]
      else if h ≤ 720 then [preset480]
      else if h ≤ 1080 then [preset480, preset720]
      else [preset480, preset720, preset1080] := by
  unfold selectResolutions
  rw [resolutions_eq]
  simp only [List.foldl, preset480, preset720, preset1080, List.getD_cons_zero]
  split_ifs <;> first | rfl | (exfalso; omega) | (simp at *; try omega)

/-- C1: for every source height `h`, `selectResolutions h` is the list of presets of the
table whose height is strictly below `h`, in table order, and when there is none (exactly
when `h ≤ 480`, zero and negative heights included) it is the single smallest preset, 480;
`selectResolutions 1080` is 480 and 720, `selectResolutions 240` is 480 alone, and the result
is never empty. -/
theorem selectResolutions_spec (h : Int) :
    selectResolutions h =
        (if resolutions.filter (fun r => decide (r.Height < h)) = [] then [preset480]
         else resolutions.filter (fun r => decide (r.Height < h)))
      ∧ (resolutions.filter (fun r => decide (r.Height < h)) = [] ↔ h ≤ 480)
      ∧ resolutions.head? = some preset480
      ∧ (∀ r ∈ resolutions, preset480.Height ≤ r.Height)
      ∧ selectResolutions 1080 = [preset480, preset720]
      ∧ selectResolutions 240 = [preset480]
      ∧ selectResolutions h ≠ [] := by
  refine ⟨?_, ?_, rfl, by decide, by decide, by decide, ?_⟩
  · rw [selectResolutions_cases, resolutions_eq]
    simp only [List.filter, preset480, preset720, preset1080]
    by_cases h1 : (480 : Int) < h <;> by_cases h2 : (720 : Int) < h <;>
      by_cases h3 : (1080 : Int) < h <;>
      simp [h1, h2, h3] <;> first | omega | (split_ifs <;> first | rfl | (exfalso; omega))
  · rw [resolutions_eq]
    simp only [List.filter, preset480, preset720, preset1080]
    by_cases h1 : (480 : Int) < h <;> by_cases h2 : (720 : Int) < h <;>
      by_cases h3 : (1080 : Int) < h <;>
      simp [h1, h2, h3] <;> omega
  · rw [selectResolutions_cases]
    split_ifs <;> simp

/-! ## The JSON store -/

theorem FS.read_remove_same (fs : FS) (p : String) : (fs.remove p).read p = none := by
  induction fs with
  | nil => rfl
  | cons e fs ih =>
    obtain ⟨q, d⟩ := e
    by_cases hq : q = p
    · simpa [FS.remove, List.filter, hq] using ih
    · simpa [FS.remove, List.filter, hq, FS.read] using ih

theorem FS.read_remove_ne (fs : FS) {p q : String} (h : q ≠ p) :
    (fs.remove p).read q = fs.read q := by
  induction fs with
  | nil => rfl
  | cons e fs ih =>
    obtain ⟨r, d⟩ := e
    have ih2 : FS.read (List.filter (fun e => !decide (e.1 = p)) fs) q = FS.read fs q := by
      simpa [FS.remove] using ih
    by_cases hr : r = p
    · subst hr
      have hrq : ¬ r = q := fun e => h e.symm
      simp [FS.remove, List.filter, FS.read, hrq, ih2]
    · by_cases hrq : r = q
      · subst hrq
        simp [FS.remove, List.filter, hr, FS.read]
      · simp [FS.remove, List.filter, hr, FS.read, hrq, ih2]

theorem FS.read_write_same (fs : FS) (p : String) (d : FileData) :
    (fs.write p d).read p = some d := by
  simp [FS.write, FS.read]

theorem FS.read_write_ne (fs : FS) {p q : String} (d : FileData) (h : q ≠ p) :
    (fs.write p d).read q = fs.read q := by
  have h2 : p ≠ q := fun e => h e.symm
  simp [FS.write, FS.read, h2, FS.read_remove_ne fs h]

theorem tmp_ne_dest (dest : String) : dest ++ ".tmp" ≠ dest := by
  intro h
  have hl := congrArg String.length h
  simp [String.length_append] at hl
  have : (".tmp" : String).length = 4 := by decide
  omega

theorem writeFileAtomic_ok (dest : String) (v : Metadata) (fs : FS) :
    (writeFileAtomic none dest v fs).1 = .ok () ∧
      (writeFileAtomic none dest v fs).2.read dest = some (.record v) := by
  have hread : ((fs.write (dest ++ ".tmp") (.record v)).remove dest).read (dest ++ ".tmp")
      = some (.record v) := by
    rw [FS.read_remove_ne _ (tmp_ne_dest dest), FS.read_write_same]
  simp [writeFileAtomic, FS.rename, hread, FS.read_write_same]

theorem Create_eq (s : JSONStore) (now : Time) (m : Metadata) (fs : FS) :
    s.Create none now m fs
      = writeFileAtomic none (s.pathFor m.ID) { m with CreatedAt := now, UpdatedAt := now } fs := by
  unfold JSONStore.Create
  simp only
  split
  · next err fs1 h => rw [h]
  · next fs1 h => rw [h]

theorem Get_Create (s : JSONStore) (now : Time) (m : Metadata) (fs : FS) :
    (s.Create none now m fs).1 = .ok () ∧
      s.Get m.ID (s.Create none now m fs).2 = .ok { m with CreatedAt := now, UpdatedAt := now } := by
  rw [Create_eq]
  obtain ⟨h1, h2⟩ :=
    writeFileAtomic_ok (s.pathFor m.ID) { m with CreatedAt := now, UpdatedAt := now } fs
  exact ⟨h1, by simp [JSONStore.Get, h2]⟩

theorem Get_Update (s : JSONStore) (now : Time) (m : Metadata) (fs : FS) :
    (s.Update none now m fs).1 = .ok () ∧
      s.Get m.ID (s.Update none now m fs).2 = .ok { m with UpdatedAt := now } := by
  obtain ⟨h1, h2⟩ := writeFileAtomic_ok (s.pathFor m.ID) { m with UpdatedAt := now } fs
  exact ⟨h1, by simp [JSONStore.Update, JSONStore.Get, h2]⟩

/-- C8 (counterexample): on a store that already holds a record for `v1`, `Create` of a
record with identifier `v1`, none of its file-system steps failing, returns no error at all,
and the stored record is replaced. -/
theorem Create_existing_returns_ok :
    demoStore.Get "v1" demoFS = .ok { demoJob with CreatedAt := 5, UpdatedAt := 5 } ∧
      (demoStore.Create none 7 { demoJob with MIME := "video/webm" } demoFS).1 = .ok () ∧
      demoStore.Get "v1" (demoStore.Create none 7 { demoJob with MIME := "video/webm" } demoFS).2
        = .ok { demoJob with MIME := "video/webm", CreatedAt := 7, UpdatedAt := 7 } := by
  decide

/-- C8 (amended): for every store state that already holds a record for an identifier,
`Create` of a record with that identifier, none of its file-system steps failing, succeeds
and overwrites the stored record: a following `Get` returns the new record with both
timestamps set to the time of the call. -/
theorem Create_existing_overwrites (s : JSONStore) (now : Time) (m old : Metadata) (fs : FS)
    (_h : s.Get m.ID fs = .ok old) :
    (s.Create none now m fs).1 = .ok () ∧
      s.Get m.ID (s.Create none now m fs).2 = .ok { m with CreatedAt := now, UpdatedAt := now } :=
  Get_Create s now m fs

/-- C8 (witness): the amended statement at `demoFS`. -/
theorem Create_existing_overwrites_witness :
    demoStore.Get demoJob.ID demoFS = .ok { demoJob with CreatedAt := 5, UpdatedAt := 5 } ∧
      ((demoStore.Create none 7 demoJob demoFS).1 = .ok () ∧
        demoStore.Get demoJob.ID (demoStore.Create none 7 demoJob demoFS).2
          = .ok { demoJob with CreatedAt := 7, UpdatedAt := 7 }) :=
  ⟨by decide, Create_existing_overwrites demoStore 7 demoJob
    { demoJob with CreatedAt := 5, UpdatedAt := 5 } demoFS (by decide)⟩

/-- C9 (counterexample): on an empty store `Get` of `v1` fails with the not-exist error, yet
`Update` of a record with identifier `v1`, none of its file-system steps failing, returns no
error, and the following `Get` of `v1` succeeds and returns that record. -/
theorem Update_absent_returns_ok :
    demoStore.Get "v1" [] = .error .ErrNotExist ∧
      (demoStore.Update none 7 demoJob []).1 = .ok () ∧
      demoStore.Get "v1" (demoStore.Update none 7 demoJob []).2
        = .ok { demoJob with UpdatedAt := 7 } := by
  decide

/-- C9 (amended): `Update` never fails because the identifier is absent. For every store
state, whether or not it holds a record for the identifier, `Update` with none of its
file-system steps failing returns no error and a following `Get` of that identifier returns
the record given to `Update` with `updated_at` set to the time of the call: an absent
identifier is created, a present one is overwritten. And whichever step fails, the value
`Update` returns is the same on every store state, so it never depends on the identifier
being present. -/
theorem Update_upserts (s : JSONStore) (now : Time) (m : Metadata) (fs : FS) :
    (s.Update none now m fs).1 = .ok () ∧
      s.Get m.ID (s.Update none now m fs).2 = .ok { m with UpdatedAt := now } ∧
      ∀ (fault : Option WriteFault) (fs' : FS),
        (s.Update fault now m fs).1 = (s.Update fault now m fs').1 := by
  refine ⟨(Get_Update s now m fs).1, (Get_Update s now m fs).2, ?_⟩
  intro fault fs'
  cases fault with
  | none => rw [(Get_Update s now m fs).1, (Get_Update s now m fs').1]
  | some f => cases f <;> rfl

/-- C10 (counterexample): a record created at time 5 and then updated at time 9 with a
record of the same identifier that carries `created_at = 0` is read back with
`created_at = 0`, not with the `created_at = 5` set by `Create`. -/
theorem Update_replaces_created_at :
    (demoStore.Get "v1" (demoStore.Create none 5 demoJob []).2).map Metadata.CreatedAt = .ok 5 ∧
      ({ demoJob with Status := "processing" } : Metadata).ID = demoJob.ID ∧
      (demoStore.Get "v1"
          (demoStore.Update none 9 { demoJob with Status := "processing" }
            (demoStore.Create none 5 demoJob []).2).2).map Metadata.CreatedAt = .ok 0 := by
  decide

/-- C10 (amended): for every record `R` and every record `R'` with the same identifier,
after `Create R` at time `t1` a `Get` returns `R` with both timestamps set to `t1`; after a
following `Update R'` at time `t2`, with the clock not running backwards (`t1 ≤ t2`), a `Get`
returns `R'` with only `updated_at` replaced by `t2`: every other field, `created_at`
included, is the one `R'` carries (so `created_at` is the one set by `Create` exactly when
`R'` carries it, as a record obtained from `Get` does), and `updated_at` is not earlier than
the previous `updated_at`. -/
theorem Create_Update_roundtrip (s : JSONStore) (t1 t2 : Time) (R R' : Metadata) (fs : FS)
    (hid : R'.ID = R.ID) (ht : t1 ≤ t2) :
    s.Get R.ID (s.Create none t1 R fs).2 = .ok { R with CreatedAt := t1, UpdatedAt := t1 } ∧
      s.Get R.ID (s.Update none t2 R' (s.Create none t1 R fs).2).2 = .ok { R' with UpdatedAt := t2 } ∧
      s.Get R.ID (s.Update none t2 { R with CreatedAt := t1, UpdatedAt := t1 }
          (s.Create none t1 R fs).2).2 = .ok { R with CreatedAt := t1, UpdatedAt := t2 } ∧
      ({ R with CreatedAt := t1, UpdatedAt := t1 } : Metadata).UpdatedAt
        ≤ ({ R' with UpdatedAt := t2 } : Metadata).UpdatedAt := by
  refine ⟨(Get_Create s t1 R fs).2, ?_, ?_, ht⟩
  · rw [← hid]
    exact (Get_Update s t2 R' (s.Create none t1 R fs).2).2
  · exact (Get_Update s t2 { R with CreatedAt := t1, UpdatedAt := t1 } (s.Create none t1 R fs).2).2

/-- C10 (witness): the amended statement for `demoJob`, created at 5 and updated at 9. -/
theorem Create_Update_roundtrip_witness :
    ({ demoJob with Status := "processing" } : Metadata).ID = demoJob.ID ∧ (5 : Time) ≤ 9 ∧
      demoStore.Get demoJob.ID (demoStore.Update none 9 { demoJob with Status := "processing" }
          (demoStore.Create none 5 demoJob []).2).2
        = .ok { demoJob with Status := "processing", UpdatedAt := 9 } :=
  ⟨rfl, by decide,
    (Create_Update_roundtrip demoStore 5 9 demoJob { demoJob with Status := "processing" } []
      rfl (by decide)).2.1⟩

/-! ## Traces -/

theorem persisted_append (a b : List Event) : persisted (a ++ b) = persisted a ++ persisted b := by
  induction a with
  | nil => rfl
  | cons e a ih => cases e <;> simp [persisted, ih]

theorem encoded_append (a b : List Event) : encoded (a ++ b) = encoded a ++ encoded b := by
  induction a with
  | nil => rfl
  | cons e a ih =>
    cases e with
    | run call name args => cases call <;> simp [encoded, ih]
    | mkdirAll path => simp [encoded, ih]
    | writeFile path content => simp [encoded, ih]
    | store m => simp [encoded, ih]

/-! ## Store calls in a world -/

theorem World.Update_eq (env : Env) (hio : ∀ n, env.writeFault n = none) (store : JSONStore)
    (m : Metadata) (w : World) :
    w.Update env store m =
      (none, { fs := (store.Update none (env.clock w.tick) m w.fs).2, tick := w.tick + 1,
               trace := w.trace ++ [.store { m with UpdatedAt := env.clock w.tick }] }) := by
  have h := (Get_Update store (env.clock w.tick) m w.fs).1
  unfold World.Update
  simp only [hio]
  split
  · next err fs heq => rw [heq] at h; cases h
  · next fs heq => rw [heq]

theorem World.Get_of_Update (env : Env) (hio : ∀ n, env.writeFault n = none)
    (store : JSONStore) (m : Metadata) (w : World) :
    (w.Update env store m).2.Get store m.ID
      = .ok { m with UpdatedAt := env.clock w.tick } := by
  rw [World.Update_eq env hio]
  exact (VideoUpload.Get_Update store (env.clock w.tick) m w.fs).2

/-! ## Stages that do not touch the store -/

theorem ProbeVideo_world (env : Env) (cfg : Config) (videoPath : String) (w : World) :
    (ProbeVideo env cfg videoPath w).2
      = w.log (.run .probe cfg.FFprobePath
          ["-v", "quiet", "-print_format", "json", "-show_format", "-show_streams",
            videoPath]) := by
  unfold ProbeVideo
  simp only
  split
  · rfl
  · split <;> rfl

theorem frameLoop_world (env : Env) (cfg : Config) (videoID inputPath thumbDir : String)
    (duration interval : Rat) (options : Options) (n : Nat) :
    ∀ (i : Nat) (thumbnails : List String) (w : World),
      ∃ es, (frameLoop env cfg videoID inputPath thumbDir duration interval options
                n i thumbnails w).2 = { w with trace := w.trace ++ es }
        ∧ persisted es = [] ∧ encoded es = [] := by
  induction n with
  | zero => intro i thumbnails w; exact ⟨[], by simp [frameLoop], rfl, rfl⟩
  | succ n ih =>
    intro i thumbnails w
    unfold frameLoop
    simp only
    generalize frameArgs inputPath _ _ options = args
    split
    · exact ⟨[.run (.frame (i + 1)) cfg.FFmpegPath args], rfl, rfl, rfl⟩
    · obtain ⟨es, h1, h2, h3⟩ := ih (i + 1)
        (thumbnails ++ ["thumbnails/" ++ videoID ++ "/thumb_" ++ pad3 (i + 1) ++ ".jpg"])
        (w.log (.run (.frame (i + 1)) cfg.FFmpegPath args))
      refine ⟨.run (.frame (i + 1)) cfg.FFmpegPath args :: es, ?_, ?_, ?_⟩
      · rw [h1]; simp [World.log]
      · simpa [persisted] using h2
      · simpa [encoded] using h3

theorem GenerateThumbnails_world (env : Env) (cfg : Config) (videoID inputPath : String)
    (duration : Rat) (options : Options) (w : World) :
    ∃ es, (GenerateThumbnails env cfg videoID inputPath duration options w).2
        = { w with trace :=
              w.trace ++ .mkdirAll (joinPath [cfg.StorageDir, "thumbnails", videoID]) :: es }
      ∧ persisted es = [] ∧ encoded es = [] := by
  unfold GenerateThumbnails
  simp only
  generalize applyDefaults options = opts
  generalize (if opts.Interval ≤ 0 ∧ duration > 0 then duration / ((opts.Count + 1 : Int) : Rat)
      else opts.Interval) = interval
  split
  · exact ⟨[], rfl, rfl, rfl⟩
  · obtain ⟨es, h1, h2, h3⟩ := frameLoop_world env cfg videoID inputPath
      (joinPath [cfg.StorageDir, "thumbnails", videoID]) duration interval opts
      opts.Count.toNat 0 []
      (w.log (.mkdirAll (joinPath [cfg.StorageDir, "thumbnails", videoID])))
    split
    · next thumbnails err w2 heq =>
      rw [heq] at h1
      simp only at h1
      exact ⟨es, by rw [h1]; simp [World.log], h2, h3⟩
    · next thumbnails w2 heq =>
      rw [heq] at h1
      simp only at h1
      refine ⟨es ++ [.run .poster cfg.FFmpegPath (posterArgs inputPath
        (joinPath [joinPath [cfg.StorageDir, "thumbnails", videoID], "poster.jpg"]) opts)],
        ?_, ?_, ?_⟩
      · split <;> (simp only [World.log]; rw [h1]; simp [World.log])
      · simp [persisted_append, h2, persisted]
      · simp [encoded_append, h3, encoded]

/-! ## The rendition loop -/

theorem persisted_ladderEvents (cfg : Config) (inputPath outputDir : String)
    (rs : List Resolution) : persisted (ladderEvents cfg inputPath outputDir rs) = [] := by
  induction rs with
  | nil => rfl
  | cons r rs ih => simp [ladderEvents, renditionEvents, persisted, ih]

theorem encoded_ladderEvents (cfg : Config) (inputPath outputDir : String)
    (rs : List Resolution) :
    encoded (ladderEvents cfg inputPath outputDir rs) = rs.map Resolution.Height := by
  induction rs with
  | nil => rfl
  | cons r rs ih => simp [ladderEvents, renditionEvents, encoded, ih]

theorem transcodeLoop_ok (env : Env) (cfg : Config) (store : JSONStore)
    (inputPath outputDir : String) (rs : List Resolution) :
    ∀ (m : Metadata) (w : World),
      (∀ r ∈ rs, env.mkdirAll (joinPath [outputDir, toString r.Height]) = none
        ∧ env.run (.encode r.Height) = none) →
      transcodeLoop env cfg store inputPath outputDir rs m w
        = (.ok { m with Variants := m.Variants ++ rs.map variantOf },
           { w with trace := w.trace ++ ladderEvents cfg inputPath outputDir rs }) := by
  induction rs with
  | nil => intro m w _; simp [transcodeLoop, ladderEvents]
  | cons r rs ih =>
    intro m w h
    have hr := h r (List.mem_cons_self _ _)
    have hrs : ∀ r' ∈ rs, env.mkdirAll (joinPath [outputDir, toString r'.Height]) = none
        ∧ env.run (.encode r'.Height) = none :=
      fun r' hr' => h r' (List.mem_cons_of_mem _ hr')
    unfold transcodeLoop
    simp only [hr.1, hr.2]
    rw [ih _ _ hrs]
    simp [World.log, ladderEvents, renditionEvents]

theorem transcodeLoop_fail (env : Env) (cfg : Config) (store : JSONStore)
    (inputPath outputDir : String) (pre : List Resolution) (res : Resolution)
    (post : List Resolution) (err : GoError) :
    ∀ (m : Metadata) (w : World),
      (∀ r ∈ pre, env.mkdirAll (joinPath [outputDir, toString r.Height]) = none
        ∧ env.run (.encode r.Height) = none) →
      env.mkdirAll (joinPath [outputDir, toString res.Height]) = none →
      env.run (.encode res.Height) = some err →
      transcodeLoop env cfg store inputPath outputDir (pre ++ res :: post) m w
        = (.error (err.wrap ("transcode " ++ toString res.Height ++ "p: ")),
           (World.Update env store
              { m with
                Variants := m.Variants ++ pre.map variantOf
                Status := StatusFailed
                ErrorMessage := "transcode " ++ toString res.Height ++ "p failed: " ++ err.Error }
              { w with trace := w.trace ++ (ladderEvents cfg inputPath outputDir pre
                  ++ renditionEvents cfg inputPath outputDir res) }).2) := by
  induction pre with
  | nil =>
    intro m w _ hmk hrun
    simp only [List.nil_append]
    unfold transcodeLoop
    simp [hmk, hrun, World.log, ladderEvents, renditionEvents]
  | cons r pre ih =>
    intro m w h hmk hrun
    have hr := h r (List.mem_cons_self _ _)
    have hrs : ∀ r' ∈ pre, env.mkdirAll (joinPath [outputDir, toString r'.Height]) = none
        ∧ env.run (.encode r'.Height) = none :=
      fun r' hr' => h r' (List.mem_cons_of_mem _ hr')
    simp only [List.cons_append]
    unfold transcodeLoop
    simp only [hr.1, hr.2]
    rw [ih _ _ hrs hmk hrun]
    simp [World.log, ladderEvents, renditionEvents]

/-! ## The rendition transcoder -/

/-- C3: for every job stored under its identifier with an empty variant list and source
height `h`, if the directory creation and the encoder invocation succeed for every preset of
`selectResolutions h`, the manifest write succeeds and no store write fails,
`TranscodeVideo` returns no error, the record stored at return is the job with
status `ready` and the variant list holding, in order, one `Variant` per selected preset with
format `hls`, the preset's height, `bitrate_kbps` parsed from the preset's video bitrate
(600, 1000, 1800 for the three presets) and path `<height>/index.m3u8`, and the encoder was
invoked exactly once per selected preset, in ladder order. -/
theorem TranscodeVideo_success (env : Env)
    (hio : ∀ n, env.writeFault n = none) (cfg : Config) (store : JSONStore)
    (videoID : String) (w : World) (job : Metadata)
    (hget : w.Get store videoID = .ok job) (hid : job.ID = videoID)
    (hvar : job.Variants = [])
    (hok : ∀ r ∈ selectResolutions job.Height,
      env.mkdirAll (joinPath [joinPath [cfg.StorageDir, "outputs", videoID],
        toString r.Height]) = none ∧ env.run (.encode r.Height) = none)
    (hmaster : env.writeFile
      (joinPath [joinPath [cfg.StorageDir, "outputs", videoID], "master.m3u8"]) = none) :
    (TranscodeVideo env cfg store videoID w).1 = none
      ∧ (TranscodeVideo env cfg store videoID w).2.Get store videoID
          = .ok { job with
              Status := "ready"
              Variants := (selectResolutions job.Height).map (fun r =>
                { Format := "hls", Height := r.Height,
                  BitrateKbps := parseBitrate r.VideoBitrate,
                  PathOrPl := toString r.Height ++ "/index.m3u8",
                  SizeBytes := 0, ReadyAtUnix := 0 })
              UpdatedAt := env.clock (w.tick + 1) }
      ∧ encoded (TranscodeVideo env cfg store videoID w).2.trace
          = encoded w.trace ++ (selectResolutions job.Height).map Resolution.Height
      ∧ resolutions.map (fun r => (r.Height, parseBitrate r.VideoBitrate,
            toString r.Height ++ "/index.m3u8"))
          = [(480, 600, "480/index.m3u8"), (720, 1000, "720/index.m3u8"),
             (1080, 1800, "1080/index.m3u8")] := by
  have hrun : TranscodeVideo env cfg store videoID w
      = (none, (World.Update env store
          { job with
            Status := StatusReady
            Variants := job.Variants ++ (selectResolutions job.Height).map variantOf }
          { fs := (store.Update none (env.clock w.tick) { job with Status := StatusProcessing }
                    w.fs).2
            tick := w.tick + 1
            trace := w.trace ++ [.store { job with Status := StatusProcessing,
                                                    UpdatedAt := env.clock w.tick }]
              ++ ladderEvents cfg
                  (joinPath [cfg.StorageDir, "originals", videoID,
                    "original" ++ filepathExt job.OriginalFilename])
                  (joinPath [cfg.StorageDir, "outputs", videoID])
                  (selectResolutions job.Height)
              ++ [.writeFile (joinPath [joinPath [cfg.StorageDir, "outputs", videoID],
                    "master.m3u8"]) (masterContent (selectResolutions job.Height))] }).2) := by
    unfold TranscodeVideo
    rw [hget]
    simp only [World.Update_eq env hio]
    rw [transcodeLoop_ok env cfg store _ _ _ _ _ hok]
    simp only [generateMasterPlaylist, World.log, hmaster]
  refine ⟨by rw [hrun], ?_, ?_, by decide⟩
  · rw [hrun, ← hid]
    have h := World.Get_of_Update env hio store
      { job with
        Status := StatusReady
        Variants := job.Variants ++ (selectResolutions job.Height).map variantOf }
      { fs := (store.Update none (env.clock w.tick) { job with Status := StatusProcessing } w.fs).2
        tick := w.tick + 1
        trace := w.trace ++ [.store { job with Status := StatusProcessing,
                                                UpdatedAt := env.clock w.tick }]
          ++ ladderEvents cfg
              (joinPath [cfg.StorageDir, "originals", job.ID,
                "original" ++ filepathExt job.OriginalFilename])
              (joinPath [cfg.StorageDir, "outputs", job.ID])
              (selectResolutions job.Height)
          ++ [.writeFile (joinPath [joinPath [cfg.StorageDir, "outputs", job.ID],
                "master.m3u8"]) (masterContent (selectResolutions job.Height))] }
    simp only at h
    rw [h, hvar]
    simp [StatusReady, variantOf]
  · rw [hrun, World.Update_eq env hio]
    simp [encoded_append, encoded_ladderEvents, encoded]

/-- C3 (witness): `demoJobUHD` in a world where every call succeeds ends `ready` with the
three variants 480, 720, 1080. -/
theorem TranscodeVideo_success_witness :
    demoWorld.Get demoStore "v1" = .ok demoJobUHD
      ∧ ((TranscodeVideo demoEnv demoConfig demoStore "v1" demoWorld).2.Get demoStore "v1").map
          (fun m => (m.Status, m.Variants.map Variant.Height)) = .ok ("ready", [480, 720, 1080])
      ∧ encoded (TranscodeVideo demoEnv demoConfig demoStore "v1" demoWorld).2.trace
          = [480, 720, 1080] := by
  have h := TranscodeVideo_success demoEnv (fun _ => rfl) demoConfig demoStore "v1" demoWorld
    demoJobUHD (by decide) rfl rfl (by decide) (by decide)
  refine ⟨by decide, ?_, ?_⟩
  · rw [h.2.1]; decide
  · rw [h.2.2.1]; decide

/-- C2 (amended): for every job stored under its identifier with an empty variant list whose
selected ladder is `pre ++ res :: post` (so `res` is rendition `k = |pre| + 1`), if no store
write fails, the renditions of `pre` are created and encoded successfully, the directory of
`res` is created and the encoder fails for `res` with `err`, then `TranscodeVideo` returns
an error, the record stored at return has status `failed`, the message
`transcode <height of res>p failed: <err>`, and exactly the variants of `pre` in ladder
order, and the encoder was invoked exactly for the `k` renditions `pre ++ [res]`, never for
`post`. -/
theorem TranscodeVideo_encoder_failure (env : Env)
    (hio : ∀ n, env.writeFault n = none) (cfg : Config) (store : JSONStore)
    (videoID : String) (w : World) (job : Metadata)
    (pre : List Resolution) (res : Resolution) (post : List Resolution) (err : GoError)
    (hget : w.Get store videoID = .ok job) (hid : job.ID = videoID)
    (hvar : job.Variants = [])
    (hsel : selectResolutions job.Height = pre ++ res :: post)
    (hpre : ∀ r ∈ pre,
      env.mkdirAll (joinPath [joinPath [cfg.StorageDir, "outputs", videoID],
        toString r.Height]) = none ∧ env.run (.encode r.Height) = none)
    (hmk : env.mkdirAll (joinPath [joinPath [cfg.StorageDir, "outputs", videoID],
        toString res.Height]) = none)
    (hfail : env.run (.encode res.Height) = some err) :
    (TranscodeVideo env cfg store videoID w).1
        = some (.msg ("transcode " ++ toString res.Height ++ "p: " ++ err.Error))
      ∧ (TranscodeVideo env cfg store videoID w).2.Get store videoID
          = .ok { job with
              Status := "failed"
              ErrorMessage := "transcode " ++ toString res.Height ++ "p failed: " ++ err.Error
              Variants := pre.map (fun r =>
                { Format := "hls", Height := r.Height,
                  BitrateKbps := parseBitrate r.VideoBitrate,
                  PathOrPl := toString r.Height ++ "/index.m3u8",
                  SizeBytes := 0, ReadyAtUnix := 0 })
              UpdatedAt := env.clock (w.tick + 1) }
      ∧ encoded (TranscodeVideo env cfg store videoID w).2.trace
          = encoded w.trace ++ (pre ++ [res]).map Resolution.Height
      ∧ (encoded (TranscodeVideo env cfg store videoID w).2.trace).length
          = (encoded w.trace).length + (pre.length + 1) := by
  have hrun : TranscodeVideo env cfg store videoID w
      = (some (err.wrap ("transcode " ++ toString res.Height ++ "p: ")),
         (World.Update env store
          { job with
            Status := StatusFailed
            ErrorMessage := "transcode " ++ toString res.Height ++ "p failed: " ++ err.Error
            Variants := job.Variants ++ pre.map variantOf }
          { fs := (store.Update none (env.clock w.tick) { job with Status := StatusProcessing }
                    w.fs).2
            tick := w.tick + 1
            trace := w.trace ++ [.store { job with Status := StatusProcessing,
                                                    UpdatedAt := env.clock w.tick }]
              ++ (ladderEvents cfg
                  (joinPath [cfg.StorageDir, "originals", videoID,
                    "original" ++ filepathExt job.OriginalFilename])
                  (joinPath [cfg.StorageDir, "outputs", videoID]) pre
                ++ renditionEvents cfg
                  (joinPath [cfg.StorageDir, "originals", videoID,
                    "original" ++ filepathExt job.OriginalFilename])
                  (joinPath [cfg.StorageDir, "outputs", videoID]) res) }).2) := by
    unfold TranscodeVideo
    rw [hget]
    simp only [World.Update_eq env hio]
    rw [hsel, transcodeLoop_fail env cfg store _ _ _ _ _ _ _ _ hpre hmk hfail]
    simp only [World.Update_eq env hio]
  have henc : encoded (TranscodeVideo env cfg store videoID w).2.trace
      = encoded w.trace ++ (pre ++ [res]).map Resolution.Height := by
    rw [hrun, World.Update_eq env hio]
    simp [encoded_append, encoded_ladderEvents, encoded, renditionEvents]
  refine ⟨by rw [hrun]; rfl, ?_, henc, by rw [henc]; simp⟩
  rw [hrun, ← hid]
  have h := World.Get_of_Update env hio store
    { job with
      Status := StatusFailed
      ErrorMessage := "transcode " ++ toString res.Height ++ "p failed: " ++ err.Error
      Variants := job.Variants ++ pre.map variantOf }
    { fs := (store.Update none (env.clock w.tick) { job with Status := StatusProcessing } w.fs).2
      tick := w.tick + 1
      trace := w.trace ++ [.store { job with Status := StatusProcessing,
                                              UpdatedAt := env.clock w.tick }]
        ++ (ladderEvents cfg
            (joinPath [cfg.StorageDir, "originals", job.ID,
              "original" ++ filepathExt job.OriginalFilename])
            (joinPath [cfg.StorageDir, "outputs", job.ID]) pre
          ++ renditionEvents cfg
            (joinPath [cfg.StorageDir, "originals", job.ID,
              "original" ++ filepathExt job.OriginalFilename])
            (joinPath [cfg.StorageDir, "outputs", job.ID]) res) }
  simp only at h
  rw [h, hvar]
  simp [StatusFailed, variantOf]

/-- C2 (witness): a failure of the encoder on the second of the three renditions selected
for `demoJobUHD` leaves the job `failed` with the single variant 480, the encoder having been
invoked for 480 and 720 only. -/
theorem TranscodeVideo_encoder_failure_witness :
    demoWorld.Get demoStore "v1" = .ok demoJobUHD
      ∧ selectResolutions demoJobUHD.Height = [preset480] ++ preset720 :: [preset1080]
      ∧ demoEnvFail720.run (.encode preset720.Height) = some (.msg "exit status 1")
      ∧ ((TranscodeVideo demoEnvFail720 demoConfig demoStore "v1" demoWorld).2.Get
            demoStore "v1").map
          (fun m => (m.Status, m.ErrorMessage, m.Variants.map Variant.Height))
          = .ok ("failed", "transcode 720p failed: exit status 1", [480])
      ∧ encoded (TranscodeVideo demoEnvFail720 demoConfig demoStore "v1" demoWorld).2.trace
          = [480, 720] := by
  have h := TranscodeVideo_encoder_failure demoEnvFail720 (fun _ => rfl) demoConfig demoStore
    "v1" demoWorld demoJobUHD [preset480] preset720 [preset1080] (.msg "exit status 1")
    (by decide) rfl rfl (by decide) (by decide) (by decide) (by decide)
  refine ⟨by decide, by decide, by decide, ?_, ?_⟩
  · rw [h.2.1]; decide
  · rw [h.2.2.1]; decide

/-- C2 (counterexample): the queued `demoJobUHD`, stored with an empty variant list, selects
three renditions; the encoder succeeds for 480 and fails for 720, and the store write that
follows the encoder failure fails in turn (its error is discarded). `TranscodeVideo` returns
the encoder error, the encoder was invoked for 480 and 720 only, yet the record stored at
return has status `processing`, not `failed`, an empty message and no variant. -/
theorem TranscodeVideo_failure_write_lost :
    demoWorld.Get demoStore "v1" = .ok demoJobUHD
      ∧ demoJobUHD.Variants = []
      ∧ selectResolutions demoJobUHD.Height = [preset480, preset720, preset1080]
      ∧ demoEnvFail720WriteFails.run (.encode 480) = none
      ∧ demoEnvFail720WriteFails.run (.encode 720) = some (.msg "exit status 1")
      ∧ (TranscodeVideo demoEnvFail720WriteFails demoConfig demoStore "v1" demoWorld).1
          = some (.msg "transcode 720p: exit status 1")
      ∧ encoded (TranscodeVideo demoEnvFail720WriteFails demoConfig demoStore "v1"
          demoWorld).2.trace = [480, 720]
      ∧ ((TranscodeVideo demoEnvFail720WriteFails demoConfig demoStore "v1" demoWorld).2.Get
            demoStore "v1").map (fun m => (m.Status, m.ErrorMessage, m.Variants))
          = .ok ("processing", "", []) := by
  decide

/-! ## Store writes of the pipeline, for every outcome of the outside world -/

theorem transcodeLoop_persisted (env : Env)
    (hio : ∀ n, env.writeFault n = none) (cfg : Config) (store : JSONStore)
    (inputPath outputDir : String) (rs : List Resolution) :
    ∀ (m : Metadata) (w : World),
      ∃ es, (transcodeLoop env cfg store inputPath outputDir rs m w).2.trace = w.trace ++ es
        ∧ ((∃ m', (transcodeLoop env cfg store inputPath outputDir rs m w).1 = .ok m'
              ∧ m'.ID = m.ID ∧ persisted es = [])
          ∨ (∃ err, (transcodeLoop env cfg store inputPath outputDir rs m w).1 = .error err
              ∧ (persisted es = []
                ∨ ∃ m', persisted es = [m'] ∧ m'.ID = m.ID ∧ m'.Status = "failed"))) := by
  induction rs with
  | nil => intro m w; exact ⟨[], by simp [transcodeLoop], Or.inl ⟨m, rfl, rfl, rfl⟩⟩
  | cons r rs ih =>
    intro m w
    unfold transcodeLoop
    simp only
    cases hmk : env.mkdirAll (joinPath [outputDir, toString r.Height]) with
    | some err =>
      exact ⟨[.mkdirAll (joinPath [outputDir, toString r.Height])], rfl,
        Or.inr ⟨_, rfl, Or.inl rfl⟩⟩
    | none =>
      cases hrun : env.run (.encode r.Height) with
      | some err =>
        simp only [World.Update_eq env hio, World.log]
        refine ⟨renditionEvents cfg inputPath outputDir r ++
          [.store { m with
            Status := StatusFailed
            ErrorMessage := "transcode " ++ toString r.Height ++ "p failed: " ++ err.Error
            UpdatedAt := env.clock w.tick }], ?_,
          Or.inr ⟨_, rfl, Or.inr ⟨{ m with
            Status := StatusFailed
            ErrorMessage := "transcode " ++ toString r.Height ++ "p failed: " ++ err.Error
            UpdatedAt := env.clock w.tick }, ?_, rfl, rfl⟩⟩⟩
        · simp [renditionEvents]
        · simp [renditionEvents, persisted]
      | none =>
        simp only
        obtain ⟨es, h1, h2⟩ := ih { m with Variants := m.Variants ++ [variantOf r] }
          ((w.log (.mkdirAll (joinPath [outputDir, toString r.Height]))).log
            (.run (.encode r.Height) cfg.FFmpegPath
              (encodeArgs inputPath (joinPath [outputDir, toString r.Height]) r)))
        refine ⟨renditionEvents cfg inputPath outputDir r ++ es, ?_, ?_⟩
        · rw [h1]; simp [World.log, renditionEvents]
        · have hp : persisted (renditionEvents cfg inputPath outputDir r ++ es)
              = persisted es := by
            simp [persisted_append, renditionEvents, persisted]
          rw [hp]
          exact h2

theorem TranscodeVideo_persisted (env : Env)
    (hio : ∀ n, env.writeFault n = none) (cfg : Config) (store : JSONStore)
    (videoID : String) (w : World) (job : Metadata)
    (hget : w.Get store videoID = .ok job) :
    ∃ es, (TranscodeVideo env cfg store videoID w).2.trace
        = w.trace ++ .store { job with Status := "processing",
                                       UpdatedAt := env.clock w.tick } :: es
      ∧ (persisted es = []
        ∨ ∃ m', persisted es = [m'] ∧ m'.ID = job.ID
            ∧ (m'.Status = "failed" ∨ m'.Status = "ready")) := by
  unfold TranscodeVideo
  rw [hget]
  simp only [World.Update_eq env hio]
  obtain ⟨es, h1, h2⟩ := transcodeLoop_persisted env hio cfg store
    (joinPath [cfg.StorageDir, "originals", videoID,
      "original" ++ filepathExt job.OriginalFilename])
    (joinPath [cfg.StorageDir, "outputs", videoID])
    (selectResolutions job.Height) { job with Status := StatusProcessing }
    { fs := (store.Update none (env.clock w.tick) { job with Status := StatusProcessing } w.fs).2
      tick := w.tick + 1
      trace := w.trace ++ [.store { job with Status := StatusProcessing,
                                              UpdatedAt := env.clock w.tick }] }
  simp only at h1
  rcases h2 with ⟨m', hok, hid', hp⟩ | ⟨err, herr, hp⟩
  · split
    · next err w2 heq =>
      have h := congrArg Prod.fst heq
      rw [hok] at h
      cases h
    · next m2 w2 heq =>
      have hm : Except.ok m' = (Except.ok m2 : Except GoError Metadata) := by
        rw [← hok, heq]
      cases hm
      have hw : w2.trace = w.trace ++
          [.store { job with Status := StatusProcessing, UpdatedAt := env.clock w.tick }]
          ++ es := by rw [← h1, heq]
      simp only [generateMasterPlaylist, World.log]
      cases env.writeFile (joinPath [joinPath [cfg.StorageDir, "outputs", videoID],
        "master.m3u8"]) with
      | some e =>
        refine ⟨es ++ [.writeFile (joinPath [joinPath [cfg.StorageDir, "outputs", videoID],
          "master.m3u8"]) (masterContent (selectResolutions job.Height))], ?_, Or.inl ?_⟩
        · simp [hw, StatusProcessing]
        · simp [persisted_append, hp, persisted]
      | none =>
        refine ⟨es ++ [.writeFile (joinPath [joinPath [cfg.StorageDir, "outputs", videoID],
          "master.m3u8"]) (masterContent (selectResolutions job.Height)),
          .store { m' with Status := StatusReady, UpdatedAt := env.clock w2.tick }], ?_,
          Or.inr ⟨{ m' with Status := StatusReady, UpdatedAt := env.clock w2.tick },
            ?_, ?_, Or.inr rfl⟩⟩
        · simp [hw, StatusProcessing]
        · simp [persisted_append, hp, persisted]
        · simpa using hid'
  · split
    · next err2 w2 heq =>
      have hw : w2.trace = w.trace ++
          [.store { job with Status := StatusProcessing, UpdatedAt := env.clock w.tick }]
          ++ es := by rw [← h1, heq]
      refine ⟨es, by simp [hw, StatusProcessing], ?_⟩
      rcases hp with hp | ⟨m', hp, hid', hst⟩
      · exact Or.inl hp
      · exact Or.inr ⟨m', hp, by simpa using hid', Or.inl hst⟩
    · next m2 w2 heq =>
      have h := congrArg Prod.fst heq
      rw [herr] at h
      cases h

/-! ## The orchestrator -/

theorem ProcessVideo_probe_error (env : Env)
    (hio : ∀ n, env.writeFault n = none) (cfg : Config) (store : JSONStore)
    (videoID : String) (w : World) (job : Metadata) (err : GoError)
    (hget : w.Get store videoID = .ok job) (hid : job.ID = videoID)
    (hprobe : (ProbeVideo env cfg (joinPath [cfg.StorageDir, "originals", videoID,
      "original" ++ filepathExt job.OriginalFilename]) w).1 = .error err) :
    ∃ thumbs,
      (ProcessVideo env cfg store videoID w).trace
          = w.trace
            ++ [.run .probe cfg.FFprobePath
                ["-v", "quiet", "-print_format", "json", "-show_format", "-show_streams",
                 joinPath [cfg.StorageDir, "originals", videoID,
                   "original" ++ filepathExt job.OriginalFilename]]]
            ++ [.store { job with
                  Status := "processing"
                  ErrorMessage := "FFprobe not available, skipping video analysis"
                  UpdatedAt := env.clock w.tick }]
            ++ (.mkdirAll (joinPath [cfg.StorageDir, "thumbnails", videoID]) :: thumbs)
            ++ [.store { job with
                  Status := "failed"
                  ErrorMessage := "FFmpeg/FFprobe not installed. Please install FFmpeg to enable video processing."
                  UpdatedAt := env.clock (w.tick + 1) }]
        ∧ persisted thumbs = [] ∧ encoded thumbs = []
        ∧ encoded (ProcessVideo env cfg store videoID w).trace = encoded w.trace
        ∧ (ProcessVideo env cfg store videoID w).Get store videoID
            = .ok { job with
                Status := "failed"
                ErrorMessage := "FFmpeg/FFprobe not installed. Please install FFmpeg to enable video processing."
                UpdatedAt := env.clock (w.tick + 1) }
        ∧ "FFmpeg/FFprobe not installed. Please install FFmpeg to enable video processing." ≠ ""
        ∧ "FFprobe not available, skipping video analysis" ≠ "" := by
  subst hid
  have hpv : ProbeVideo env cfg (joinPath [cfg.StorageDir, "originals", job.ID,
      "original" ++ filepathExt job.OriginalFilename]) w
      = (.error err, w.log (.run .probe cfg.FFprobePath
          ["-v", "quiet", "-print_format", "json", "-show_format", "-show_streams",
            joinPath [cfg.StorageDir, "originals", job.ID,
              "original" ++ filepathExt job.OriginalFilename]])) :=
    Prod.ext hprobe (ProbeVideo_world _ _ _ _)
  unfold ProcessVideo
  rw [hget]
  simp only [hpv]
  generalize hw1 : ((w.log (.run .probe cfg.FFprobePath
          ["-v", "quiet", "-print_format", "json", "-show_format", "-show_streams",
            joinPath [cfg.StorageDir, "originals", job.ID,
              "original" ++ filepathExt job.OriginalFilename]])).Update env store
        { job with
          Status := "processing"
          ErrorMessage := "FFprobe not available, skipping video analysis" }).2 = w1
  rw [World.Update_eq env hio] at hw1
  obtain ⟨thumbs, h1, h2, h3⟩ := GenerateThumbnails_world env cfg job.ID
    (joinPath [cfg.StorageDir, "originals", job.ID,
      "original" ++ filepathExt job.OriginalFilename]) 0 DefaultOptions w1
  rw [h1]
  have hget2 := World.Get_of_Update env hio store
    { job with
      Status := "failed"
      ErrorMessage := "FFmpeg/FFprobe not installed. Please install FFmpeg to enable video processing." }
    { w1 with trace := w1.trace
        ++ .mkdirAll (joinPath [cfg.StorageDir, "thumbnails", job.ID]) :: thumbs }
  refine ⟨thumbs, ?_, h2, h3, ?_, ?_, by decide, by decide⟩
  · rw [World.Update_eq env hio, ← hw1]
    simp [World.log]
  · rw [World.Update_eq env hio, ← hw1]
    simp [World.log, encoded_append, encoded, h3]
  · rw [hget2, ← hw1]
    simp [World.log]

theorem ProcessVideo_probe_ok (env : Env)
    (hio : ∀ n, env.writeFault n = none) (cfg : Config) (store : JSONStore)
    (videoID : String) (w : World) (job : Metadata) (videoInfo : VideoInfo)
    (hget : w.Get store videoID = .ok job) (hid : job.ID = videoID)
    (hprobe : (ProbeVideo env cfg (joinPath [cfg.StorageDir, "originals", videoID,
      "original" ++ filepathExt job.OriginalFilename]) w).1 = .ok videoInfo) :
    ∃ thumbs es,
      (ProcessVideo env cfg store videoID w).trace
          = w.trace
            ++ [.run .probe cfg.FFprobePath
                ["-v", "quiet", "-print_format", "json", "-show_format", "-show_streams",
                 joinPath [cfg.StorageDir, "originals", videoID,
                   "original" ++ filepathExt job.OriginalFilename]]]
            ++ [.store { job with
                  DurationSec := videoInfo.Duration
                  Width := videoInfo.Width
                  Height := videoInfo.Height
                  FPS := videoInfo.FPS
                  UpdatedAt := env.clock (w.tick + 1) }]
            ++ (.mkdirAll (joinPath [cfg.StorageDir, "thumbnails", videoID]) :: thumbs)
            ++ (.store { job with
                  DurationSec := videoInfo.Duration
                  Width := videoInfo.Width
                  Height := videoInfo.Height
                  FPS := videoInfo.FPS
                  Status := "processing"
                  UpdatedAt := env.clock (w.tick + 2) } :: es)
        ∧ persisted thumbs = []
        ∧ (persisted es = []
          ∨ ∃ m', persisted es = [m'] ∧ m'.ID = job.ID
              ∧ (m'.Status = "failed" ∨ m'.Status = "ready")) := by
  subst hid
  have hpv : ProbeVideo env cfg (joinPath [cfg.StorageDir, "originals", job.ID,
      "original" ++ filepathExt job.OriginalFilename]) w
      = (.ok videoInfo, w.log (.run .probe cfg.FFprobePath
          ["-v", "quiet", "-print_format", "json", "-show_format", "-show_streams",
            joinPath [cfg.StorageDir, "originals", job.ID,
              "original" ++ filepathExt job.OriginalFilename]])) :=
    Prod.ext hprobe (ProbeVideo_world _ _ _ _)
  unfold ProcessVideo
  rw [hget]
  simp only [hpv]
  generalize hw1 : (World.Update env store
        { job with
          DurationSec := videoInfo.Duration
          Width := videoInfo.Width
          Height := videoInfo.Height
          FPS := videoInfo.FPS
          UpdatedAt := env.clock (w.log (.run .probe cfg.FFprobePath
            ["-v", "quiet", "-print_format", "json", "-show_format", "-show_streams",
              joinPath [cfg.StorageDir, "originals", job.ID,
                "original" ++ filepathExt job.OriginalFilename]])).tick }
        { w.log (.run .probe cfg.FFprobePath
            ["-v", "quiet", "-print_format", "json", "-show_format", "-show_streams",
              joinPath [cfg.StorageDir, "originals", job.ID,
                "original" ++ filepathExt job.OriginalFilename]]) with
          tick := (w.log (.run .probe cfg.FFprobePath
            ["-v", "quiet", "-print_format", "json", "-show_format", "-show_streams",
              joinPath [cfg.StorageDir, "originals", job.ID,
                "original" ++ filepathExt job.OriginalFilename]])).tick + 1 }).2 = w1
  rw [World.Update_eq env hio] at hw1
  obtain ⟨thumbs, h1, h2, _⟩ := GenerateThumbnails_world env cfg job.ID
    (joinPath [cfg.StorageDir, "originals", job.ID,
      "original" ++ filepathExt job.OriginalFilename]) videoInfo.Duration DefaultOptions w1
  rw [h1]
  have hg : World.Get store job.ID
      { w1 with trace := w1.trace
          ++ .mkdirAll (joinPath [cfg.StorageDir, "thumbnails", job.ID]) :: thumbs }
      = .ok { job with
          DurationSec := videoInfo.Duration
          Width := videoInfo.Width
          Height := videoInfo.Height
          FPS := videoInfo.FPS
          UpdatedAt := env.clock (w.tick + 1) } := by
    rw [← hw1]
    exact (VideoUpload.Get_Update store (env.clock (w.tick + 1))
      { job with
        DurationSec := videoInfo.Duration
        Width := videoInfo.Width
        Height := videoInfo.Height
        FPS := videoInfo.FPS
        UpdatedAt := env.clock w.tick } w.fs).2
  obtain ⟨es, h3, h4⟩ := TranscodeVideo_persisted env hio cfg store job.ID _ _ hg
  refine ⟨thumbs, es, ?_, h2, ?_⟩
  · rw [h3, ← hw1]
    simp [World.log]
  · simpa using h4

/-- C7 (amended): for every job stored under its identifier, when `ProbeVideo` fails and no
store write fails, the actions of `ProcessVideo` are, in order: the inspector subprocess; a
store write of the job with status `processing` and a diagnostic message; the thumbnail
attempt (creation of the thumbnail directory followed by actions `thumbs` that contain no
store write and no encoder invocation); a store write of the job with status `failed` and a
non-empty message. Nothing follows: no rendition encoder is invoked, and the record stored
at return is the job with only status, message and `updated_at` changed, so its variant list
is unchanged. This holds for every outcome of the thumbnail attempt. -/
theorem ProcessVideo_probe_failure (env : Env)
    (hio : ∀ n, env.writeFault n = none) (cfg : Config) (store : JSONStore)
    (videoID : String) (w : World) (job : Metadata) (err : GoError)
    (hget : w.Get store videoID = .ok job) (hid : job.ID = videoID)
    (hprobe : (ProbeVideo env cfg (joinPath [cfg.StorageDir, "originals", videoID,
      "original" ++ filepathExt job.OriginalFilename]) w).1 = .error err) :
    ∃ thumbs,
      (ProcessVideo env cfg store videoID w).trace
          = w.trace
            ++ [.run .probe cfg.FFprobePath
                ["-v", "quiet", "-print_format", "json", "-show_format", "-show_streams",
                 joinPath [cfg.StorageDir, "originals", videoID,
                   "original" ++ filepathExt job.OriginalFilename]]]
            ++ [.store { job with
                  Status := "processing"
                  ErrorMessage := "FFprobe not available, skipping video analysis"
                  UpdatedAt := env.clock w.tick }]
            ++ (.mkdirAll (joinPath [cfg.StorageDir, "thumbnails", videoID]) :: thumbs)
            ++ [.store { job with
                  Status := "failed"
                  ErrorMessage := "FFmpeg/FFprobe not installed. Please install FFmpeg to enable video processing."
                  UpdatedAt := env.clock (w.tick + 1) }]
        ∧ persisted thumbs = [] ∧ encoded thumbs = []
        ∧ encoded (ProcessVideo env cfg store videoID w).trace = encoded w.trace
        ∧ (ProcessVideo env cfg store videoID w).Get store videoID
            = .ok { job with
                Status := "failed"
                ErrorMessage := "FFmpeg/FFprobe not installed. Please install FFmpeg to enable video processing."
                UpdatedAt := env.clock (w.tick + 1) }
        ∧ "FFmpeg/FFprobe not installed. Please install FFmpeg to enable video processing." ≠ ""
        ∧ "FFprobe not available, skipping video analysis" ≠ "" :=
  ProcessVideo_probe_error env hio cfg store videoID w job err hget hid hprobe

/-- C4 (amended): for every job stored under its identifier with status `queued`, and for
every outcome of the inspector, thumbnail and encoder subprocesses (and of directory creation
and the manifest write), provided no store write fails, every record `ProcessVideo` persists
is a record of that job, and the statuses it persists, in order, form a chain from the
stored `queued` in which every step is allowed by the lifecycle: no write carries an earlier
status than the one stored before it and none sets `ready` or `failed` over `queued`. The
sequence of persisted statuses is one of: processing, failed (inspection failed); queued,
processing; queued, processing, failed; queued, processing, ready. -/
theorem ProcessVideo_status_order (env : Env)
    (hio : ∀ n, env.writeFault n = none) (cfg : Config) (store : JSONStore)
    (videoID : String) (w : World) (job : Metadata)
    (hget : w.Get store videoID = .ok job) (hid : job.ID = videoID)
    (hq : job.Status = "queued") :
    ∃ es, (ProcessVideo env cfg store videoID w).trace = w.trace ++ es
      ∧ (∀ m ∈ persisted es, m.ID = videoID)
      ∧ List.Chain (fun prev next => allowedStep prev next = true) "queued"
          ((persisted es).map Metadata.Status)
      ∧ (persisted es).map Metadata.Status ∈
          [["processing", "failed"], ["queued", "processing"],
           ["queued", "processing", "failed"], ["queued", "processing", "ready"]] := by
  cases hp : (ProbeVideo env cfg (joinPath [cfg.StorageDir, "originals", videoID,
      "original" ++ filepathExt job.OriginalFilename]) w).1 with
  | error err =>
    obtain ⟨thumbs, ht, hpt, _⟩ :=
      ProcessVideo_probe_error env hio cfg store videoID w job err hget hid hp
    refine ⟨_, by rw [ht]; simp only [List.append_assoc]; rfl, ?_, ?_, ?_⟩
    · intro m hm
      simp [persisted_append, persisted, hpt] at hm
      rcases hm with rfl | rfl <;> exact hid
    · simp [persisted_append, persisted, hpt]
      decide
    · simp [persisted_append, persisted, hpt]
  | ok videoInfo =>
    obtain ⟨thumbs, es, ht, hpt, hes⟩ :=
      ProcessVideo_probe_ok env hio cfg store videoID w job videoInfo hget hid hp
    refine ⟨_, by rw [ht]; simp only [List.append_assoc]; rfl, ?_, ?_, ?_⟩
    · intro m hm
      rcases hes with hes | ⟨m', hes, hid', _⟩
      · simp [persisted_append, persisted, hpt, hes] at hm
        rcases hm with rfl | rfl <;> exact hid
      · simp [persisted_append, persisted, hpt, hes] at hm
        rcases hm with rfl | rfl | rfl
        · exact hid
        · exact hid
        · exact hid'.trans hid
    · rcases hes with hes | ⟨m', hes, _, hst⟩
      · simp [persisted_append, persisted, hpt, hes, hq]
        decide
      · rcases hst with hst | hst <;>
          simp [persisted_append, persisted, hpt, hes, hq, hst] <;> decide
    · rcases hes with hes | ⟨m', hes, _, hst⟩
      · simp [persisted_append, persisted, hpt, hes, hq]
      · rcases hst with hst | hst <;>
          simp [persisted_append, persisted, hpt, hes, hq, hst]

/-- C4 (witness): the queued `demoJobUHD` processed in a world where every call succeeds. -/
theorem ProcessVideo_status_order_witness :
    demoWorld.Get demoStore "v1" = .ok demoJobUHD ∧ demoJobUHD.Status = "queued"
      ∧ ∃ es, (ProcessVideo demoEnv demoConfig demoStore "v1" demoWorld).trace
            = demoWorld.trace ++ es
          ∧ List.Chain (fun prev next => allowedStep prev next = true) "queued"
              ((persisted es).map Metadata.Status) := by
  obtain ⟨es, h1, _, h3, _⟩ := ProcessVideo_status_order demoEnv (fun _ => rfl) demoConfig
    demoStore "v1" demoWorld demoJobUHD (by decide) rfl rfl
  exact ⟨by decide, rfl, es, h1, h3⟩

/-- C4 (counterexample): the queued `demoJobUHD` with neither tool installed, in a world where
the first store write (status `processing` with the diagnostic message) fails and the second
succeeds. The errors of both writes are discarded, so the only record `ProcessVideo`
persists carries status `failed`, written while the stored status is still `queued`: the
persisted statuses do not form a chain of allowed steps from `queued`. -/
theorem ProcessVideo_failed_over_queued :
    (demoWorld.Get demoStore "v1").map Metadata.Status = .ok "queued"
      ∧ (persisted (ProcessVideo demoEnvNoToolsFirstWriteFails demoConfig demoStore "v1"
            demoWorld).trace).map (fun m => (m.ID, m.Status)) = [("v1", "failed")]
      ∧ allowedStep "queued" "failed" = false
      ∧ ¬ List.Chain (fun prev next => allowedStep prev next = true) "queued"
            ((persisted (ProcessVideo demoEnvNoToolsFirstWriteFails demoConfig demoStore "v1"
              demoWorld).trace).map Metadata.Status)
      ∧ ((ProcessVideo demoEnvNoToolsFirstWriteFails demoConfig demoStore "v1" demoWorld).Get
            demoStore "v1").map Metadata.Status = .ok "failed" := by
  have hp : (persisted (ProcessVideo demoEnvNoToolsFirstWriteFails demoConfig demoStore "v1"
      demoWorld).trace).map Metadata.Status = ["failed"] := by decide
  refine ⟨by decide, by decide, by decide, ?_, by decide⟩
  rw [hp]
  intro h
  cases h with
  | cons h1 _ => exact absurd h1 (by decide)

/-- C5 (counterexample): a stored job whose status is `ready` is rewritten by both entry
points: in a world where directories cannot be created, `TranscodeVideo` returns an error
and leaves the job stored with status `processing`, and so does `ProcessVideo`, which has
also replaced the probed height. -/
theorem pipeline_mutates_ready_job :
    (demoWorldReady.Get demoStore "v1").map (fun m => (m.Status, m.Height))
        = .ok ("ready", 2160)
      ∧ ((TranscodeVideo demoEnvNoDisk demoConfig demoStore "v1" demoWorldReady).2.Get
            demoStore "v1").map (fun m => (m.Status, m.Height)) = .ok ("processing", 2160)
      ∧ ((ProcessVideo demoEnvNoDisk demoConfig demoStore "v1" demoWorldReady).Get
            demoStore "v1").map (fun m => (m.Status, m.Height)) = .ok ("processing", 0) := by
  decide

/-- C5 (amended): the pipeline has no terminal-state guard. For every job stored under its
identifier whose status is already `ready` or `failed`, whatever the subprocesses return
and as long as the store writes themselves do not fail, `TranscodeVideo` begins with a store
write of that job with status `processing` (every other field but `updated_at` as stored),
and `ProcessVideo` persists a record of that job with status `processing`. -/
theorem pipeline_rewrites_terminal_job (env : Env)
    (hio : ∀ n, env.writeFault n = none) (cfg : Config) (store : JSONStore)
    (videoID : String) (w : World) (job : Metadata)
    (hget : w.Get store videoID = .ok job) (hid : job.ID = videoID)
    (_hterm : job.Status = "ready" ∨ job.Status = "failed") :
    (∃ es, (TranscodeVideo env cfg store videoID w).2.trace
        = w.trace ++ .store { job with Status := "processing",
                                       UpdatedAt := env.clock w.tick } :: es)
      ∧ (∃ es m, (ProcessVideo env cfg store videoID w).trace = w.trace ++ es
          ∧ m ∈ persisted es ∧ m.ID = videoID ∧ m.Status = "processing") := by
  constructor
  · obtain ⟨es, h, _⟩ := TranscodeVideo_persisted env hio cfg store videoID w job hget
    exact ⟨es, h⟩
  · cases hp : (ProbeVideo env cfg (joinPath [cfg.StorageDir, "originals", videoID,
        "original" ++ filepathExt job.OriginalFilename]) w).1 with
    | error err =>
      obtain ⟨thumbs, ht, _⟩ :=
        ProcessVideo_probe_error env hio cfg store videoID w job err hget hid hp
      refine ⟨_, { job with
          Status := "processing"
          ErrorMessage := "FFprobe not available, skipping video analysis"
          UpdatedAt := env.clock w.tick },
        by rw [ht]; simp only [List.append_assoc]; rfl, ?_, hid, rfl⟩
      simp [persisted_append, persisted]
    | ok videoInfo =>
      obtain ⟨thumbs, es, ht, _⟩ :=
        ProcessVideo_probe_ok env hio cfg store videoID w job videoInfo hget hid hp
      refine ⟨_, { job with
          DurationSec := videoInfo.Duration
          Width := videoInfo.Width
          Height := videoInfo.Height
          FPS := videoInfo.FPS
          Status := "processing"
          UpdatedAt := env.clock (w.tick + 2) },
        by rw [ht]; simp only [List.append_assoc]; rfl, ?_, hid, rfl⟩
      simp [persisted_append, persisted]

/-- C5 (witness): the amended statement for the `ready` job of `demoWorldReady`. -/
theorem pipeline_rewrites_terminal_job_witness :
    demoWorldReady.Get demoStore "v1"
        = .ok { demoJobUHD with Status := "ready", Variants := [variantOf preset480] }
      ∧ ∃ es m, (ProcessVideo demoEnv demoConfig demoStore "v1" demoWorldReady).trace
            = demoWorldReady.trace ++ es
          ∧ m ∈ persisted es ∧ m.ID = "v1" ∧ m.Status = "processing" :=
  ⟨by decide,
    (pipeline_rewrites_terminal_job demoEnv (fun _ => rfl) demoConfig demoStore "v1"
      demoWorldReady
      { demoJobUHD with Status := "ready", Variants := [variantOf preset480] }
      (by decide) rfl (Or.inl rfl)).2⟩

/-- C6 (failing inputs): `TranscodeVideo` on the queued `demoJobUHD`. When the directory of
the first rendition cannot be created it returns the error `create resolution dir: ...`, and
when the manifest cannot be written it returns `generate master playlist: ...`; in both
cases the record stored at return still has status `processing` and an empty error message,
whereas a failure of the encoder stores status `failed` with a message. -/
theorem TranscodeVideo_leaves_processing :
    (TranscodeVideo demoEnvNoDisk demoConfig demoStore "v1" demoWorld).1
        = some (.msg "create resolution dir: permission denied")
      ∧ ((TranscodeVideo demoEnvNoDisk demoConfig demoStore "v1" demoWorld).2.Get
            demoStore "v1").map (fun m => (m.Status, m.ErrorMessage)) = .ok ("processing", "")
      ∧ (TranscodeVideo demoEnvNoManifest demoConfig demoStore "v1" demoWorld).1
        = some (.msg "generate master playlist: no space left on device")
      ∧ ((TranscodeVideo demoEnvNoManifest demoConfig demoStore "v1" demoWorld).2.Get
            demoStore "v1").map (fun m => (m.Status, m.ErrorMessage)) = .ok ("processing", "")
      ∧ ((TranscodeVideo demoEnvFail720 demoConfig demoStore "v1" demoWorld).2.Get
            demoStore "v1").map (fun m => (m.Status, m.ErrorMessage))
          = .ok ("failed", "transcode 720p failed: exit status 1") := by
  decide

/-- C7 (witness): with neither tool installed, the queued `demoJobUHD` ends `failed` with
its variant list still empty and the encoder never invoked. -/
theorem ProcessVideo_probe_failure_witness :
    demoWorld.Get demoStore "v1" = .ok demoJobUHD
      ∧ (ProbeVideo demoEnvNoTools demoConfig (joinPath [demoConfig.StorageDir, "originals",
          "v1", "original" ++ filepathExt demoJobUHD.OriginalFilename]) demoWorld).1
        = .error (.msg "ffprobe failed: executable file not found in $PATH")
      ∧ ((ProcessVideo demoEnvNoTools demoConfig demoStore "v1" demoWorld).Get
            demoStore "v1").map (fun m => (m.Status, m.Variants)) = .ok ("failed", [])
      ∧ encoded (ProcessVideo demoEnvNoTools demoConfig demoStore "v1" demoWorld).trace
          = [] := by
  obtain ⟨thumbs, _, _, _, h4, h5, _⟩ := ProcessVideo_probe_failure demoEnvNoTools
    (fun _ => rfl) demoConfig demoStore "v1" demoWorld demoJobUHD
    (.msg "ffprobe failed: executable file not found in $PATH") (by decide) rfl (by decide)
  refine ⟨by decide, by decide, ?_, ?_⟩
  · rw [h5]; decide
  · rw [h4]; decide

/-- C7 (counterexample): the queued `demoJobUHD` with neither tool installed, so that
`ProbeVideo` fails, in a world where the second store write (status `failed`) fails; its
error is discarded. The only record `ProcessVideo` persists carries status `processing`,
and the record stored at return has status `processing` with the diagnostic message of the
first write: status `failed` is never persisted. -/
theorem ProcessVideo_probe_failure_write_lost :
    demoWorld.Get demoStore "v1" = .ok demoJobUHD
      ∧ (ProbeVideo demoEnvNoToolsSecondWriteFails demoConfig (joinPath [demoConfig.StorageDir,
          "originals", "v1", "original" ++ filepathExt demoJobUHD.OriginalFilename])
          demoWorld).1
        = .error (.msg "ffprobe failed: executable file not found in $PATH")
      ∧ (persisted (ProcessVideo demoEnvNoToolsSecondWriteFails demoConfig demoStore "v1"
            demoWorld).trace).map Metadata.Status = ["processing"]
      ∧ ((ProcessVideo demoEnvNoToolsSecondWriteFails demoConfig demoStore "v1" demoWorld).Get
            demoStore "v1").map (fun m => (m.Status, m.ErrorMessage))
          = .ok ("processing", "FFprobe not available, skipping video analysis") := by
  decide

/-! ## The steps of a store write -/

/-- C11 (failing input): `Update` of the stored job `v1` at time 9. Of the five states of the
metadata directory a reader can find, the first three show the complete pre-update record
and the last the complete post-update record, but in the fourth, after `os.Remove` and
before `os.Rename`, `Get` fails with the not-exist error and `List` holds no record for
`v1`. The temporary file is never listed, not even while it holds partial content. -/
theorem Update_states_lose_record :
    (demoStore.UpdateStates 9 { demoJob with Status := "processing", CreatedAt := 5 }
        demoFS).map (fun fs => demoStore.Get "v1" fs)
      = [.ok { demoJob with CreatedAt := 5, UpdatedAt := 5 },
         .ok { demoJob with CreatedAt := 5, UpdatedAt := 5 },
         .ok { demoJob with CreatedAt := 5, UpdatedAt := 5 },
         .error .ErrNotExist,
         .ok { demoJob with Status := "processing", CreatedAt := 5, UpdatedAt := 9 }]
    ∧ (demoStore.UpdateStates 9 { demoJob with Status := "processing", CreatedAt := 5 }
        demoFS).map (fun fs => demoStore.List fs)
      = [[{ demoJob with CreatedAt := 5, UpdatedAt := 5 }],
         [{ demoJob with CreatedAt := 5, UpdatedAt := 5 }],
         [{ demoJob with CreatedAt := 5, UpdatedAt := 5 }],
         [],
         [{ demoJob with Status := "processing", CreatedAt := 5, UpdatedAt := 9 }]]
    ∧ (demoStore.UpdateStates 9 { demoJob with Status := "processing", CreatedAt := 5 }
        demoFS).getLast? = some (demoStore.Update none 9
          { demoJob with Status := "processing", CreatedAt := 5 } demoFS).2 := by
  decide

/-! ## The frame loop -/

theorem frameLoop_ok (env : Env) (cfg : Config) (videoID inputPath thumbDir : String)
    (duration interval : Rat) (options : Options) (n : Nat) :
    ∀ (i : Nat) (thumbnails : List String) (w : World),
      (∀ j, i < j → j ≤ i + n → env.run (.frame j) = none) →
      frameLoop env cfg videoID inputPath thumbDir duration interval options n i thumbnails w
        = ((thumbnails ++ (List.range' (i + 1) n).map (framePath videoID), none),
           { w with trace := (w.trace ++ (List.range' (i + 1) n).map
               (frameEvent cfg inputPath thumbDir duration interval options)) }) := by
  induction n with
  | zero => intro i thumbnails w _; simp [frameLoop]
  | succ n ih =>
    intro i thumbnails w h
    unfold frameLoop
    simp only [h (i + 1) (by omega) (by omega)]
    rw [ih (i + 1) _ _ (fun j h1 h2 => h j (by omega) (by omega))]
    simp [List.range'_succ, World.log, framePath, frameEvent]

theorem frameLoop_fail (env : Env) (cfg : Config) (videoID inputPath thumbDir : String)
    (duration interval : Rat) (options : Options) (err : GoError) (m : Nat) :
    ∀ (n i : Nat) (thumbnails : List String) (w : World),
      m < n →
      (∀ j, i < j → j ≤ i + m → env.run (.frame j) = none) →
      env.run (.frame (i + m + 1)) = some err →
      frameLoop env cfg videoID inputPath thumbDir duration interval options n i thumbnails w
        = ((thumbnails ++ (List.range' (i + 1) m).map (framePath videoID),
            some (err.wrap ("generate thumbnail " ++ toString (i + m + 1) ++ " at "
              ++ sprintf2f (frameTimestamp duration interval options.Count (i + m))
              ++ "s: "))),
           { w with trace := (w.trace ++ (List.range' (i + 1) (m + 1)).map
               (frameEvent cfg inputPath thumbDir duration interval options)) }) := by
  induction m with
  | zero =>
    intro n i thumbnails w hn _ hfail
    obtain ⟨n, rfl⟩ : ∃ n', n = n' + 1 := ⟨n - 1, by omega⟩
    unfold frameLoop
    simp only [Nat.add_zero] at hfail ⊢
    simp [hfail, World.log, frameEvent, List.range'_succ]
  | succ m ih =>
    intro n i thumbnails w hn hok hfail
    obtain ⟨n, rfl⟩ : ∃ n', n = n' + 1 := ⟨n - 1, by omega⟩
    have e : i + (m + 1) + 1 = i + 1 + m + 1 := by omega
    have e2 : i + (m + 1) = i + 1 + m := by omega
    unfold frameLoop
    simp only [hok (i + 1) (by omega) (by omega)]
    rw [ih n (i + 1) _ _ (by omega) (fun j h1 h2 => hok j (by omega) (by omega))
      (by rw [← e]; exact hfail)]
    simp [List.range'_succ, World.log, framePath, frameEvent, e, e2]

theorem frameLoop_events (env : Env) (cfg : Config) (videoID inputPath thumbDir : String)
    (duration interval : Rat) (options : Options) (n : Nat) :
    ∀ (i : Nat) (thumbnails : List String) (w : World),
      ∃ k, k ≤ n ∧
        (frameLoop env cfg videoID inputPath thumbDir duration interval options
            n i thumbnails w).2.trace
          = w.trace ++ (List.range' (i + 1) k).map
              (frameEvent cfg inputPath thumbDir duration interval options) := by
  induction n with
  | zero => intro i thumbnails w; exact ⟨0, le_refl _, by simp [frameLoop]⟩
  | succ n ih =>
    intro i thumbnails w
    unfold frameLoop
    simp only
    cases env.run (.frame (i + 1)) with
    | some err => exact ⟨1, by omega, by simp [World.log, frameEvent, List.range'_succ]⟩
    | none =>
      obtain ⟨k, hk, h⟩ := ih (i + 1)
        (thumbnails ++ ["thumbnails/" ++ videoID ++ "/thumb_" ++ pad3 (i + 1) ++ ".jpg"])
        (w.log (.run (.frame (i + 1)) cfg.FFmpegPath
          (frameArgs inputPath (joinPath [thumbDir, "thumb_" ++ pad3 (i + 1) ++ ".jpg"])
            (frameTimestamp duration interval options.Count i) options)))
      refine ⟨k + 1, by omega, ?_⟩
      simp only at h ⊢
      rw [h]
      simp [World.log, frameEvent, List.range'_succ]

/-! ## The thumbnail generator -/

theorem applyDefaults_Count (options : Options) :
    (applyDefaults options).Count = if options.Count ≤ 0 then 5 else options.Count := by
  unfold applyDefaults
  simp only
  split_ifs <;> rfl

theorem applyDefaults_Count_pos (options : Options) : 1 ≤ (applyDefaults options).Count := by
  rw [applyDefaults_Count]
  split_ifs <;> omega

theorem frameCalls_append (a b : List Event) : frameCalls (a ++ b) = frameCalls a ++ frameCalls b := by
  induction a with
  | nil => rfl
  | cons e a ih =>
    cases e with
    | run call name args => cases call <;> simp [frameCalls, ih]
    | mkdirAll path => simp [frameCalls, ih]
    | writeFile path content => simp [frameCalls, ih]
    | store m => simp [frameCalls, ih]

theorem frameCalls_frameEvents (cfg : Config) (inputPath thumbDir : String)
    (duration interval : Rat) (options : Options) (l : List Nat) :
    frameCalls (l.map (frameEvent cfg inputPath thumbDir duration interval options)) = l := by
  induction l with
  | nil => rfl
  | cons i l ih => simp [frameEvent, frameCalls, ih]

theorem GenerateThumbnails_frames_ok (env : Env) (cfg : Config) (videoID inputPath : String)
    (duration : Rat) (options : Options) (w : World)
    (hmk : env.mkdirAll (joinPath [cfg.StorageDir, "thumbnails", videoID]) = none)
    (hok : ∀ j, 1 ≤ j → j ≤ (applyDefaults options).Count.toNat → env.run (.frame j) = none) :
    GenerateThumbnails env cfg videoID inputPath duration options w
      = (((List.range' 1 (applyDefaults options).Count.toNat).map (framePath videoID)
            ++ (match env.run .poster with
                | some _ => ["thumbnails/" ++ videoID ++ "/poster.jpg"]
                | none => []), none),
         { w with trace := (w.trace
            ++ .mkdirAll (joinPath [cfg.StorageDir, "thumbnails", videoID])
              :: ((List.range' 1 (applyDefaults options).Count.toNat).map
                  (frameEvent cfg inputPath (joinPath [cfg.StorageDir, "thumbnails", videoID])
                    duration (chosenInterval duration (applyDefaults options))
                    (applyDefaults options))
                ++ [.run .poster cfg.FFmpegPath (posterArgs inputPath
                    (joinPath [joinPath [cfg.StorageDir, "thumbnails", videoID], "poster.jpg"])
                    (applyDefaults options))])) }) := by
  unfold GenerateThumbnails
  simp only [hmk]
  have h := frameLoop_ok env cfg videoID inputPath
    (joinPath [cfg.StorageDir, "thumbnails", videoID]) duration
    (chosenInterval duration (applyDefaults options)) (applyDefaults options)
    (applyDefaults options).Count.toNat 0 []
    (w.log (.mkdirAll (joinPath [cfg.StorageDir, "thumbnails", videoID])))
    (fun j h1 h2 => hok j (by omega) (by omega))
  unfold chosenInterval at h
  rw [h]
  cases env.run .poster <;> simp [World.log, chosenInterval]

theorem GenerateThumbnails_frame_fail (env : Env) (cfg : Config) (videoID inputPath : String)
    (duration : Rat) (options : Options) (w : World) (m : Nat) (err : GoError)
    (hmk : env.mkdirAll (joinPath [cfg.StorageDir, "thumbnails", videoID]) = none)
    (hm : m < (applyDefaults options).Count.toNat)
    (hok : ∀ j, 1 ≤ j → j ≤ m → env.run (.frame j) = none)
    (hfail : env.run (.frame (m + 1)) = some err) :
    GenerateThumbnails env cfg videoID inputPath duration options w
      = (((List.range' 1 m).map (framePath videoID),
          some (.msg ("generate thumbnail " ++ toString (m + 1) ++ " at "
            ++ sprintf2f (seekTimestamp duration options (m + 1)) ++ "s: "
            ++ err.Error))),
         { w with trace := (w.trace
            ++ .mkdirAll (joinPath [cfg.StorageDir, "thumbnails", videoID])
              :: (List.range' 1 (m + 1)).map
                  (frameEvent cfg inputPath (joinPath [cfg.StorageDir, "thumbnails", videoID])
                    duration (chosenInterval duration (applyDefaults options))
                    (applyDefaults options))) }) := by
  unfold GenerateThumbnails
  simp only [hmk]
  have h := frameLoop_fail env cfg videoID inputPath
    (joinPath [cfg.StorageDir, "thumbnails", videoID]) duration
    (chosenInterval duration (applyDefaults options)) (applyDefaults options) err m
    (applyDefaults options).Count.toNat 0 []
    (w.log (.mkdirAll (joinPath [cfg.StorageDir, "thumbnails", videoID])))
    hm (fun j h1 h2 => hok j (by omega) (by omega)) (by simpa using hfail)
  unfold chosenInterval at h
  rw [h]
  simp [World.log, chosenInterval, seekTimestamp, GoError.wrap, String.append_assoc]

theorem GenerateThumbnails_events (env : Env) (cfg : Config) (videoID inputPath : String)
    (duration : Rat) (options : Options) (w : World) :
    ∃ k rest, k ≤ (applyDefaults options).Count.toNat ∧ frameCalls rest = [] ∧
      (GenerateThumbnails env cfg videoID inputPath duration options w).2.trace
        = w.trace ++ .mkdirAll (joinPath [cfg.StorageDir, "thumbnails", videoID])
            :: ((List.range' 1 k).map
                (frameEvent cfg inputPath (joinPath [cfg.StorageDir, "thumbnails", videoID])
                  duration (chosenInterval duration (applyDefaults options))
                  (applyDefaults options)) ++ rest) := by
  unfold GenerateThumbnails
  simp only
  cases env.mkdirAll (joinPath [cfg.StorageDir, "thumbnails", videoID]) with
  | some err => exact ⟨0, [], by omega, rfl, by simp [World.log]⟩
  | none =>
    obtain ⟨k, hk, h⟩ := frameLoop_events env cfg videoID inputPath
      (joinPath [cfg.StorageDir, "thumbnails", videoID]) duration
      (chosenInterval duration (applyDefaults options)) (applyDefaults options)
      (applyDefaults options).Count.toNat 0 []
      (w.log (.mkdirAll (joinPath [cfg.StorageDir, "thumbnails", videoID])))
    unfold chosenInterval at h
    simp only at h ⊢
    split
    · next thumbnails err w2 heq =>
      rw [heq] at h
      exact ⟨k, [], hk, rfl, by simp only at h; rw [h]; simp [World.log, chosenInterval]⟩
    · next thumbnails w2 heq =>
      rw [heq] at h
      simp only at h
      refine ⟨k, [.run .poster cfg.FFmpegPath (posterArgs inputPath
        (joinPath [joinPath [cfg.StorageDir, "thumbnails", videoID], "poster.jpg"])
        (applyDefaults options))], hk, rfl, ?_⟩
      split <;> (simp only [World.log]; rw [h]; simp [World.log, chosenInterval])

/-- C13 (failing input): `GenerateThumbnails` for a 3 second source with the default options.
When all five frames and the poster are extracted successfully the returned list is the five
frame paths without the poster path, and when the poster extraction fails the returned list
ends with the poster path: the test on the poster's error is inverted. -/
theorem GenerateThumbnails_poster_inverted :
    demoEnv.run .poster = none
      ∧ (GenerateThumbnails demoEnv demoConfig "v1" "storage/originals/v1/original.mp4" 3
          DefaultOptions demoWorld).1
        = (["thumbnails/v1/thumb_001.jpg", "thumbnails/v1/thumb_002.jpg",
            "thumbnails/v1/thumb_003.jpg", "thumbnails/v1/thumb_004.jpg",
            "thumbnails/v1/thumb_005.jpg"], none)
      ∧ demoEnvNoPoster.run .poster = some (.msg "exit status 1")
      ∧ (GenerateThumbnails demoEnvNoPoster demoConfig "v1" "storage/originals/v1/original.mp4"
          3 DefaultOptions demoWorld).1
        = (["thumbnails/v1/thumb_001.jpg", "thumbnails/v1/thumb_002.jpg",
            "thumbnails/v1/thumb_003.jpg", "thumbnails/v1/thumb_004.jpg",
            "thumbnails/v1/thumb_005.jpg", "thumbnails/v1/poster.jpg"], none) := by
  refine ⟨rfl, ?_, rfl, ?_⟩
  · rw [GenerateThumbnails_frames_ok demoEnv demoConfig "v1" _ 3 DefaultOptions demoWorld
      (by decide) (fun _ _ _ => rfl)]
    decide
  · rw [GenerateThumbnails_frames_ok demoEnvNoPoster demoConfig "v1" _ 3 DefaultOptions
      demoWorld (by decide) (fun j _ _ => by simp [demoEnvNoPoster])]
    decide

/-- C14: for every `k` with `1 ≤ k ≤ count`, if the thumbnail directory is created, the
extraction succeeds for frames `1 .. k-1` and fails for frame `k` with `err`, then
`GenerateThumbnails` returns the error `generate thumbnail <k> at <t>s: <err>` together with
exactly the `k-1` relative paths of frames `1 .. k-1` in index order, and the actions it
performed are the creation of the directory followed by the extraction subprocesses of frames
`1 .. k` only: nothing is invoked for frames `k+1 .. count` (nor for the poster). -/
theorem GenerateThumbnails_frame_failure (env : Env) (cfg : Config)
    (videoID inputPath : String) (duration : Rat) (options : Options) (w : World)
    (k : Nat) (err : GoError)
    (hmk : env.mkdirAll (joinPath [cfg.StorageDir, "thumbnails", videoID]) = none)
    (hk1 : 1 ≤ k) (hkc : (k : Int) ≤ options.Count)
    (hok : ∀ j, 1 ≤ j → j < k → env.run (.frame j) = none)
    (hfail : env.run (.frame k) = some err) :
    (GenerateThumbnails env cfg videoID inputPath duration options w).1
        = ((List.range' 1 (k - 1)).map (fun j => "thumbnails/" ++ videoID ++ "/thumb_"
              ++ pad3 j ++ ".jpg"),
           some (.msg ("generate thumbnail " ++ toString k ++ " at "
             ++ sprintf2f (seekTimestamp duration options k) ++ "s: " ++ err.Error)))
      ∧ (GenerateThumbnails env cfg videoID inputPath duration options w).2.trace
        = w.trace ++ .mkdirAll (joinPath [cfg.StorageDir, "thumbnails", videoID])
            :: (List.range' 1 k).map
                (frameEvent cfg inputPath (joinPath [cfg.StorageDir, "thumbnails", videoID])
                  duration (chosenInterval duration (applyDefaults options))
                  (applyDefaults options))
      ∧ frameCalls (GenerateThumbnails env cfg videoID inputPath duration options w).2.trace
        = frameCalls w.trace ++ List.range' 1 k := by
  obtain ⟨m, rfl⟩ : ∃ m, k = m + 1 := ⟨k - 1, by omega⟩
  have hc : (applyDefaults options).Count = options.Count := by
    rw [applyDefaults_Count]
    split_ifs with h
    · omega
    · rfl
  have hrun := GenerateThumbnails_frame_fail env cfg videoID inputPath duration options w m err
    hmk (by rw [hc]; omega) (fun j h1 h2 => hok j h1 (by omega)) hfail
  rw [hrun]
  refine ⟨?_, rfl, ?_⟩
  · simp [framePath]
  · simp only [frameCalls_append]
    rw [show ∀ (e : Event) (es : List Event), e :: es = [e] ++ es from fun _ _ => rfl,
      frameCalls_append, frameCalls_frameEvents]
    simp [frameCalls]

/-- C14 (witness): with the default five frames and a failure on frame 3, the two paths of
frames 1 and 2 are returned with the error, and frames 4 and 5 are never attempted. -/
theorem GenerateThumbnails_frame_failure_witness :
    demoEnvFailFrame3.run (.frame 3) = some (.msg "exit status 1")
      ∧ (GenerateThumbnails demoEnvFailFrame3 demoConfig "v1"
          "storage/originals/v1/original.mp4" 3 DefaultOptions demoWorld).1.1
        = ["thumbnails/v1/thumb_001.jpg", "thumbnails/v1/thumb_002.jpg"]
      ∧ frameCalls (GenerateThumbnails demoEnvFailFrame3 demoConfig "v1"
          "storage/originals/v1/original.mp4" 3 DefaultOptions demoWorld).2.trace
        = [1, 2, 3] := by
  have h := GenerateThumbnails_frame_failure demoEnvFailFrame3 demoConfig "v1"
    "storage/originals/v1/original.mp4" 3 DefaultOptions demoWorld 3 (.msg "exit status 1")
    (by decide) (by decide) (by decide)
    (fun j h1 h2 => by
      have : j = 1 ∨ j = 2 := by omega
      rcases this with rfl | rfl <;> decide)
    (by decide)
  refine ⟨by decide, ?_, ?_⟩
  · rw [h.1]; decide
  · rw [h.2.2]; decide

/-! ## Seek timestamps -/

theorem applyDefaults_Interval (options : Options) :
    (applyDefaults options).Interval = options.Interval := by
  unfold applyDefaults
  simp only
  split_ifs <;> rfl

theorem applyDefaults_Count_of_pos (options : Options) (h : 1 ≤ options.Count) :
    (applyDefaults options).Count = options.Count := by
  rw [applyDefaults_Count]
  split_ifs with h0
  · omega
  · rfl

theorem frameTimestamp_eq (duration interval : Rat) (count : Int) (i : Nat) (hi : 1 ≤ i) :
    frameTimestamp duration interval count (i - 1)
      = if interval * (i : Rat) < duration then interval * (i : Rat)
        else duration * ((i : Rat) - 1) / (count : Rat) := by
  unfold frameTimestamp
  have e1 : (((i - 1 + 1 : Nat) : Int) : Rat) = (i : Rat) := by
    rw [Nat.sub_add_cancel hi]; simp
  have e2 : (((i - 1 : Nat) : Int) : Rat) = (i : Rat) - 1 := by
    simp [Nat.cast_sub hi]
  simp only [e1, e2, mul_div_assoc]
  split_ifs with h1 h2 h2
  · exact absurd h2 (not_lt.mpr h1)
  · rfl
  · rfl
  · exact absurd (not_lt.mp h2) h1

theorem seekTimestamp_eq (duration : Rat) (options : Options) (i : Nat)
    (hc : 1 ≤ options.Count) (hi : 1 ≤ i) :
    seekTimestamp duration options i
      = if chosenInterval duration options * (i : Rat) < duration
        then chosenInterval duration options * (i : Rat)
        else duration * ((i : Rat) - 1) / (options.Count : Rat) := by
  unfold seekTimestamp
  rw [frameTimestamp_eq _ _ _ _ hi]
  simp only [chosenInterval, applyDefaults_Interval, applyDefaults_Count_of_pos options hc]

theorem auto_below_duration (duration : Rat) (count : Int) (i : Nat)
    (hd : 0 < duration) (hic : (i : Int) ≤ count) :
    duration / ((count + 1 : Int) : Rat) * (i : Rat) < duration := by
  have h1 : (i : Rat) ≤ (count : Rat) := by exact_mod_cast hic
  have h0 : (0 : Rat) ≤ (i : Rat) := by positivity
  have hc : (0 : Rat) < ((count + 1 : Int) : Rat) := by push_cast; linarith
  rw [div_mul_eq_mul_div, div_lt_iff₀ hc]
  push_cast
  nlinarith

theorem auto_not_below_duration (duration : Rat) (count : Int) (i : Nat)
    (hd : duration ≤ 0) (hic : (i : Int) ≤ count) :
    ¬ duration / ((count + 1 : Int) : Rat) * (i : Rat) < duration := by
  have h1 : (i : Rat) ≤ (count : Rat) := by exact_mod_cast hic
  have h0 : (0 : Rat) ≤ (i : Rat) := by positivity
  have hc : (0 : Rat) < ((count + 1 : Int) : Rat) := by push_cast; linarith
  rw [div_mul_eq_mul_div, div_lt_iff₀ hc]
  push_cast
  nlinarith

/-- C12: for every duration, every `count ≥ 1`, every interval and every frame `i` with
`1 ≤ i ≤ count`, the seek timestamp `GenerateThumbnails` computes for frame `i` is
`interval' * i` when that is strictly below `duration` and `duration * (i-1) / count`
otherwise, where `interval'` is the configured interval when it is positive and
`duration / (count + 1)` when it is unspecified (zero); a negative interval is treated as
unspecified when the duration is positive and is used as it is otherwise. With an
unspecified interval and a positive duration the clamp never triggers. In exact arithmetic:
duration 3, count 5, unspecified interval gives 1/2, 1, 3/2, 2, 5/2; duration 3, count 2,
interval 5/2 gives 5/2 for frame 1 and the clamped 3/2 for frame 2. -/
theorem seekTimestamp_spec (duration : Rat) (options : Options) (i : Nat)
    (hc : 1 ≤ options.Count) (hi : 1 ≤ i) (hic : (i : Int) ≤ options.Count) :
    seekTimestamp duration options i
        = (if (if options.Interval > 0 then options.Interval
               else if options.Interval = 0 ∨ duration > 0
                 then duration / ((options.Count : Rat) + 1)
               else options.Interval) * (i : Rat) < duration
           then (if options.Interval > 0 then options.Interval
               else if options.Interval = 0 ∨ duration > 0
                 then duration / ((options.Count : Rat) + 1)
               else options.Interval) * (i : Rat)
           else duration * ((i : Rat) - 1) / (options.Count : Rat))
      ∧ (0 < duration → options.Interval = 0 →
          seekTimestamp duration options i = duration / ((options.Count : Rat) + 1) * (i : Rat)
            ∧ duration / ((options.Count : Rat) + 1) * (i : Rat) < duration)
      ∧ (List.range' 1 5).map (seekTimestamp 3 DefaultOptions) = [1 / 2, 1, 3 / 2, 2, 5 / 2]
      ∧ (List.range' 1 2).map
          (seekTimestamp 3 { Count := 2, Interval := 5 / 2, Width := 320, Quality := 2 })
          = [5 / 2, 3 / 2] := by
  have hauto := auto_below_duration duration options.Count i
  have hnot := auto_not_below_duration duration options.Count i
  have hcast : ((options.Count + 1 : Int) : Rat) = (options.Count : Rat) + 1 := by push_cast; rfl
  rw [hcast] at hauto hnot
  refine ⟨?_, ?_, ?_, ?_⟩
  · rw [seekTimestamp_eq duration options i hc hi]
    unfold chosenInterval
    rw [hcast]
    by_cases hpos : options.Interval > 0
    · have h1 : ¬ (options.Interval ≤ 0 ∧ duration > 0) := fun h => absurd hpos (not_lt.mpr h.1)
      simp only [hpos, h1, if_true, if_false]
    · have hle : options.Interval ≤ 0 := not_lt.mp hpos
      by_cases hd : duration > 0
      · simp only [hpos, hle, hd, and_self, or_true, if_true, if_false]
      · have h1 : ¬ (options.Interval ≤ 0 ∧ duration > 0) := fun h => hd h.2
        by_cases hz : options.Interval = 0
        · have hn := hnot (not_lt.mp hd) hic
          have hd' : ¬ (0 : Rat) < duration := hd
          rw [if_neg h1, if_neg hpos, if_pos (Or.inl hz), if_neg hn, hz, zero_mul, if_neg hd']
        · have h2 : ¬ (options.Interval = 0 ∨ duration > 0) := fun h => h.elim hz hd
          simp only [hpos, h1, h2, if_false]
  · intro hd hz
    have hlt := hauto hd hic
    rw [seekTimestamp_eq duration options i hc hi]
    unfold chosenInterval
    rw [hcast]
    have h1 : options.Interval ≤ 0 ∧ duration > 0 := ⟨le_of_eq hz, hd⟩
    simp only [h1, and_self, if_true, hlt]
  · norm_num [seekTimestamp, frameTimestamp, chosenInterval, applyDefaults, DefaultOptions,
      List.range']
  · norm_num [seekTimestamp, frameTimestamp, chosenInterval, applyDefaults, List.range']

/-- C12 (witness): duration 3, count 2, interval 5/2: frame 2 is clamped to 3/2. -/
theorem seekTimestamp_spec_witness :
    (1 : Int) ≤ ({ Count := 2, Interval := 5 / 2, Width := 320, Quality := 2 } : Options).Count
      ∧ 1 ≤ 2
      ∧ ((2 : Nat) : Int)
          ≤ ({ Count := 2, Interval := 5 / 2, Width := 320, Quality := 2 } : Options).Count
      ∧ seekTimestamp 3 { Count := 2, Interval := 5 / 2, Width := 320, Quality := 2 } 2
          = 3 / 2 := by
  have h := (seekTimestamp_spec 3 { Count := 2, Interval := 5 / 2, Width := 320, Quality := 2 }
    2 (by decide) (by decide) (by decide)).1
  refine ⟨by decide, by decide, by decide, ?_⟩
  rw [h]
  norm_num

theorem seekTimestamp_range (duration : Rat) (options : Options) (i : Nat)
    (hd : 0 < duration) (hc : 1 ≤ options.Count) (hi : 1 ≤ i)
    (hic : (i : Int) ≤ options.Count) :
    0 ≤ seekTimestamp duration options i ∧ seekTimestamp duration options i < duration := by
  have h1 : (i : Rat) ≤ (options.Count : Rat) := by exact_mod_cast hic
  have h0 : (1 : Rat) ≤ (i : Rat) := by exact_mod_cast hi
  have hcpos : (0 : Rat) < (options.Count : Rat) := by linarith
  rw [seekTimestamp_eq duration options i hc hi]
  by_cases hle : options.Interval ≤ 0
  · have hiv : chosenInterval duration options
        = duration / ((options.Count + 1 : Int) : Rat) := by
      unfold chosenInterval
      rw [if_pos ⟨hle, hd⟩]
    have hlt := auto_below_duration duration options.Count i hd hic
    rw [hiv, if_pos hlt]
    refine ⟨?_, hlt⟩
    have hc1 : (0 : Rat) < ((options.Count + 1 : Int) : Rat) := by push_cast; linarith
    positivity
  · have hiv : chosenInterval duration options = options.Interval := by
      unfold chosenInterval
      rw [if_neg (fun h => hle h.1)]
    have hpos : 0 < options.Interval := not_le.mp hle
    rw [hiv]
    split_ifs with hlt
    · exact ⟨by positivity, hlt⟩
    · have hfrac : ((i : Rat) - 1) / (options.Count : Rat) < 1 := by
        rw [div_lt_one hcpos]; linarith
      have hnn : 0 ≤ ((i : Rat) - 1) / (options.Count : Rat) :=
        div_nonneg (by linarith) hcpos.le
      rw [mul_div_assoc]
      constructor
      · positivity
      · nlinarith

/-- Before formatting: for every duration `> 0`, every `count ≥ 1` and every interval, the
timestamp `GenerateThumbnails` computes for each frame `1 .. count` lies in
`0 ≤ t < duration`, whether or not the clamp fires; and in every run the extraction
subprocesses invoked are those of frames `1 .. k` for some `k ≤ count`, each with the
argument list built from the timestamp of its frame. -/
theorem GenerateThumbnails_seeks_inside (env : Env) (cfg : Config)
    (videoID inputPath : String) (duration : Rat) (options : Options) (w : World)
    (hd : 0 < duration) (hc : 1 ≤ options.Count) :
    (∀ i : Nat, 1 ≤ i → (i : Int) ≤ options.Count →
        0 ≤ seekTimestamp duration options i ∧ seekTimestamp duration options i < duration)
      ∧ ∃ (k : Nat) (rest : List Event),
          (k : Int) ≤ options.Count ∧ frameCalls rest = [] ∧
          (GenerateThumbnails env cfg videoID inputPath duration options w).2.trace
            = w.trace ++ .mkdirAll (joinPath [cfg.StorageDir, "thumbnails", videoID])
                :: ((List.range' 1 k).map (fun i =>
                      Event.run (.frame i) cfg.FFmpegPath
                        (frameArgs inputPath
                          (joinPath [joinPath [cfg.StorageDir, "thumbnails", videoID],
                            "thumb_" ++ pad3 i ++ ".jpg"])
                          (seekTimestamp duration options i) (applyDefaults options)))
                    ++ rest)
          ∧ ∀ i ∈ List.range' 1 k,
              0 ≤ seekTimestamp duration options i
                ∧ seekTimestamp duration options i < duration := by
  have hrange : ∀ i : Nat, 1 ≤ i → (i : Int) ≤ options.Count →
      0 ≤ seekTimestamp duration options i ∧ seekTimestamp duration options i < duration :=
    fun i hi hic => seekTimestamp_range duration options i hd hc hi hic
  refine ⟨hrange, ?_⟩
  obtain ⟨k, rest, hk, hrest, htrace⟩ :=
    GenerateThumbnails_events env cfg videoID inputPath duration options w
  have hcount := applyDefaults_Count_of_pos options hc
  have hk' : (k : Int) ≤ options.Count := by
    rw [hcount] at hk
    omega
  refine ⟨k, rest, hk', hrest, ?_, ?_⟩
  · rw [htrace]
    rfl
  · intro i hi
    rw [List.mem_range'_1] at hi
    exact hrange i hi.1 (by omega)

theorem roundHundredths_sixtieth : roundHundredths (1 / 60) = 2 := by
  have hy : |(1 / 60 : ℚ)| * 100 = 5 / 3 := by norm_num [abs_of_pos]
  have hf : ⌊(5 / 3 : ℚ)⌋ = 1 := by rw [Int.floor_eq_iff]; norm_num
  unfold roundHundredths
  simp only [hy, hf]
  norm_num

theorem sprintf2f_sixtieth : sprintf2f (1 / 60) = "0.02" := by
  have h0 : ¬ ((1 / 60 : ℚ) < 0) := by norm_num
  simp only [sprintf2f, roundHundredths_sixtieth, if_neg h0]
  decide

theorem roundHundredths_fiftieth : roundHundredths (1 / 50) = 2 := by
  have hy : |(1 / 50 : ℚ)| * 100 = 2 := by norm_num [abs_of_pos]
  have hf : ⌊(2 : ℚ)⌋.toNat = 2 := by
    have h : ⌊(2 : ℚ)⌋ = 2 := by rw [Int.floor_eq_iff]; norm_num
    rw [h]; rfl
  unfold roundHundredths
  simp only [hy, hf]
  norm_num

theorem sprintf2f_fiftieth : sprintf2f (1 / 50) = "0.02" := by
  have h0 : ¬ ((1 / 50 : ℚ) < 0) := by norm_num
  simp only [sprintf2f, roundHundredths_fiftieth, if_neg h0]
  decide

theorem roundHundredths_late : roundHundredths (249 / 250) = 100 := by
  have hy : |(249 / 250 : ℚ)| * 100 = 498 / 5 := by norm_num [abs_of_pos]
  have hf : ⌊(498 / 5 : ℚ)⌋.toNat = 99 := by
    have h : ⌊(498 / 5 : ℚ)⌋ = 99 := by rw [Int.floor_eq_iff]; norm_num
    rw [h]; rfl
  unfold roundHundredths
  simp only [hy, hf]
  norm_num

theorem sprintf2f_late : sprintf2f (249 / 250) = "1.00" := by
  have h0 : ¬ ((249 / 250 : ℚ) < 0) := by norm_num
  simp only [sprintf2f, roundHundredths_late, if_neg h0]
  decide

theorem roundHundredths_one : roundHundredths 1 = 100 := by
  have hy : |(1 : ℚ)| * 100 = 100 := by norm_num
  have hf : ⌊(100 : ℚ)⌋.toNat = 100 := by
    have h : ⌊(100 : ℚ)⌋ = 100 := by rw [Int.floor_eq_iff]; norm_num
    rw [h]; rfl
  unfold roundHundredths
  simp only [hy, hf]
  norm_num

theorem sprintf2f_one : sprintf2f 1 = "1.00" := by
  have h0 : ¬ ((1 : ℚ) < 0) := by norm_num
  simp only [sprintf2f, roundHundredths_one, if_neg h0]
  decide

/-- C17 (failing inputs): the text passed after `-ss` is the timestamp printed with two
decimals, and the printing rounds. For a source of 0.02 seconds with the default options, the
timestamp computed for frame 5 is 1/60, inside the stream and not clamped, yet the
extraction subprocess of frame 5 is invoked with `-ss 0.02`, the same text that prints the
duration itself. For a source of 1 second with one frame asked at interval 0.996, the
timestamp computed for frame 1 is 0.996, not clamped, and the subprocess is invoked with
`-ss 1.00`, the text that prints the duration 1. -/
theorem GenerateThumbnails_seek_rounds_to_end :
    (seekTimestamp (1 / 50) DefaultOptions 5 = 1 / 60 ∧ (1 / 60 : Rat) < 1 / 50
      ∧ Event.run (.frame 5) "ffmpeg"
          ["-y", "-ss", "0.02", "-i", "storage/originals/v1/original.mp4", "-vframes", "1",
           "-vf", "scale=320:-1", "-q:v", "2", "storage/thumbnails/v1/thumb_005.jpg"]
        ∈ (GenerateThumbnails demoEnv demoConfig "v1" "storage/originals/v1/original.mp4"
            (1 / 50) DefaultOptions demoWorld).2.trace
      ∧ sprintf2f (1 / 50) = "0.02")
    ∧ (seekTimestamp 1 demoOptionsLate 1 = 249 / 250 ∧ (249 / 250 : Rat) < 1
      ∧ Event.run (.frame 1) "ffmpeg"
          ["-y", "-ss", "1.00", "-i", "storage/originals/v1/original.mp4", "-vframes", "1",
           "-vf", "scale=320:-1", "-q:v", "2", "storage/thumbnails/v1/thumb_001.jpg"]
        ∈ (GenerateThumbnails demoEnv demoConfig "v1" "storage/originals/v1/original.mp4"
            1 demoOptionsLate demoWorld).2.trace
      ∧ sprintf2f 1 = "1.00") := by
  have hts : seekTimestamp (1 / 50) DefaultOptions 5 = 1 / 60 := by
    norm_num [seekTimestamp, frameTimestamp, chosenInterval, applyDefaults, DefaultOptions]
  have hlate : seekTimestamp 1 demoOptionsLate 1 = 249 / 250 := by
    norm_num [seekTimestamp, frameTimestamp, chosenInterval, applyDefaults, demoOptionsLate]
  refine ⟨⟨hts, by norm_num, ?_, sprintf2f_fiftieth⟩, ⟨hlate, by norm_num, ?_, sprintf2f_one⟩⟩
  · rw [GenerateThumbnails_frames_ok demoEnv demoConfig "v1" _ (1 / 50) DefaultOptions
        demoWorld (by decide) (fun _ _ _ => rfl)]
    simp only [List.mem_append, List.mem_cons, List.mem_map]
    refine Or.inr (Or.inr (Or.inl ⟨5, by decide, ?_⟩))
    have hargs : frameTimestamp (1 / 50)
        (chosenInterval (1 / 50) (applyDefaults DefaultOptions))
        (applyDefaults DefaultOptions).Count (5 - 1) = 1 / 60 := hts
    simp only [frameEvent, frameArgs, hargs, sprintf2f_sixtieth]
    decide
  · rw [GenerateThumbnails_frames_ok demoEnv demoConfig "v1" _ 1 demoOptionsLate
        demoWorld (by decide) (fun _ _ _ => rfl)]
    simp only [List.mem_append, List.mem_cons, List.mem_map]
    refine Or.inr (Or.inr (Or.inl ⟨1, by decide, ?_⟩))
    have hargs : frameTimestamp 1
        (chosenInterval 1 (applyDefaults demoOptionsLate))
        (applyDefaults demoOptionsLate).Count (1 - 1) = 249 / 250 := hlate
    simp only [frameEvent, frameArgs, hargs, sprintf2f_late]
    decide

/-! ## The top-level manifest -/

theorem masterContent_foldl (rs : List Resolution) :
    ∀ acc : String,
      rs.foldl
          (fun content res =>
            content ++ ("#EXT-X-STREAM-INF:BANDWIDTH="
                ++ toString (parseBitrate res.VideoBitrate * 1000
                    + parseBitrate res.AudioBitrate * 1000)
                ++ ",RESOLUTION=" ++ toString ((res.Height * 16).tdiv 9) ++ "x"
                ++ toString res.Height ++ "\n")
              ++ (toString res.Height ++ "/index.m3u8\n"))
          acc
        = acc ++ entriesText rs := by
  induction rs with
  | nil => intro acc; simp [entriesText]
  | cons r rs ih =>
    intro acc
    have hb : parseBitrate r.VideoBitrate * 1000 + parseBitrate r.AudioBitrate * 1000
        = 1000 * (parseBitrate r.VideoBitrate + parseBitrate r.AudioBitrate) := by ring
    rw [List.foldl_cons, ih]
    simp only [entriesText, streamEntry, hb, String.append_assoc]

theorem selectResolutions_ascending (h : Int) :
    List.Pairwise (fun a b => a < b) ((selectResolutions h).map Resolution.Height) := by
  rw [selectResolutions_cases]
  split_ifs <;> decide

theorem selectResolutions_subset (h : Int) : ∀ r ∈ selectResolutions h, r ∈ resolutions := by
  rw [selectResolutions_cases]
  split_ifs <;> decide

/-- C15: for every source height, the text `generateMasterPlaylist` writes for the ladder of
`selectResolutions` is the header followed by exactly one stream entry per rendition, in
ladder order, which is ascending in height. Each entry is the declaration line with
`BANDWIDTH` equal to 1000 times the sum of the preset's video and audio kbps and
`RESOLUTION` equal to `height * 16 / 9` (integer division) by `height`, followed by the
reference `<height>/index.m3u8`. For the 480p preset the declared bandwidth is 696000. -/
theorem generateMasterPlaylist_spec (env : Env) (outputDir : String) (w : World) (h : Int) :
    (generateMasterPlaylist env outputDir (selectResolutions h) w).2.trace
        = w.trace ++ [.writeFile (joinPath [outputDir, "master.m3u8"])
            ("#EXTM3U\n#EXT-X-VERSION:3\n\n" ++ entriesText (selectResolutions h))]
      ∧ List.Pairwise (fun a b => a < b) ((selectResolutions h).map Resolution.Height)
      ∧ (∀ r ∈ selectResolutions h,
          streamEntry r
            = "#EXT-X-STREAM-INF:BANDWIDTH="
                ++ toString (1000 * (parseBitrate r.VideoBitrate + parseBitrate r.AudioBitrate))
                ++ ",RESOLUTION=" ++ toString (r.Height * 16 / 9) ++ "x" ++ toString r.Height
                ++ "\n" ++ toString r.Height ++ "/index.m3u8\n")
      ∧ resolutions.map streamEntry
          = ["#EXT-X-STREAM-INF:BANDWIDTH=696000,RESOLUTION=853x480\n480/index.m3u8\n",
             "#EXT-X-STREAM-INF:BANDWIDTH=1128000,RESOLUTION=1280x720\n720/index.m3u8\n",
             "#EXT-X-STREAM-INF:BANDWIDTH=1928000,RESOLUTION=1920x1080\n1080/index.m3u8\n"]
      ∧ 1000 * (parseBitrate preset480.VideoBitrate + parseBitrate preset480.AudioBitrate)
          = 696000 := by
  refine ⟨?_, selectResolutions_ascending h, ?_, by decide, by decide⟩
  · simp only [generateMasterPlaylist, World.log, masterContent]
    rw [masterContent_foldl]
  · intro r hr
    have hmem := selectResolutions_subset h r hr
    have hdiv : (r.Height * 16).tdiv 9 = r.Height * 16 / 9 := by
      simp only [resolutions, List.mem_cons, List.mem_singleton, List.not_mem_nil,
        or_false] at hmem
      rcases hmem with rfl | rfl | rfl <;> decide
    simp only [streamEntry, hdiv, String.append_assoc]

/-! ## The inspector -/

/-- C16 (failing input): a probe output listing a video stream of unknown dimensions (width
and height 0, codec `mjpeg`, rate `0/0`), then a 1920x1080 `h264` stream at `30/1`, then an
audio stream. `ProbeVideo` returns the width, height, codec and frame rate of the second
video stream, not of the first, because a stream is taken as long as the width collected so
far is 0. When the 1920x1080 stream is listed first, a later video stream does not replace
it. -/
theorem ProbeVideo_skips_zero_width :
    ((ProbeVideo (demoEnvStreams [demoStreamUnknown, demoStreamHD, demoStreamAudio])
          demoConfig "storage/originals/v1/original.mp4" demoWorld).1).map
        (fun info => (info.Width, info.Height, info.CodecName, info.AudioCodec))
      = .ok (1920, 1080, "h264", "aac")
    ∧ ((ProbeVideo (demoEnvStreams [demoStreamUnknown, demoStreamHD, demoStreamAudio])
          demoConfig "storage/originals/v1/original.mp4" demoWorld).1).map
        (fun info => info.FPS) = .ok 30
    ∧ ((ProbeVideo (demoEnvStreams [demoStreamHD, demoStreamUnknown, demoStreamAudio])
          demoConfig "storage/originals/v1/original.mp4" demoWorld).1).map
        (fun info => (info.Width, info.Height, info.CodecName, info.AudioCodec))
      = .ok (1920, 1080, "h264", "aac") := by
  refine ⟨by decide, ?_, by decide⟩
  simp [ProbeVideo, probeStreams, demoEnvStreams, demoEnv, demoStreamUnknown, demoStreamHD,
    demoStreamAudio, splitChars, demoParseFloat, Except.map]

end VideoUpload
